import Mathlib

/-!
Verification of the CSV → issue-tracker import script (`scripts/gh-import-issues.py`).

The script is embedded shallowly: its pure logic (CSV-row normalisation, JSON
handling, payload construction, retry/backoff, the per-row driver loop) is
translated into executable Lean definitions; calls to the external `gh`
command are modelled by oracles supplying the `(exit code, stdout, stderr)`
triple each call would have produced, with a distinguished value for a user
interrupt (Python `KeyboardInterrupt`, which is not an `Exception` and so is
not caught by the script's per-row handler).  Machine integers are modelled by
`Int` (Python integers are unbounded) and the float `retry_base_delay` by `ℚ`
(the only operations used on it, `max` and multiplication by powers of two,
are exact in both representations).

JSON parsing (`json.loads`) is embedded by a small recursive-descent parser
over the same grammar restricted to integer numerals (the responses the
script reads — label lists, milestone lists, created-issue objects — carry
integer ids); like `json.loads` it rejects trailing data after a value, which
is what makes two concatenated arrays on one line unparseable.
-/

/-- First-match association-list lookup (Python `dict.get` after the builders
below, which keep at most one entry per key). -/
def lookupA (k : String) : List (String × Int) → Option Int
  | [] => none
  | (k', v) :: rest => if k' = k then some v else lookupA k rest

/-- `m[k] = v` on an association list: replace the existing entry in place, or
append.  Models assignment into a Python dict. -/
def setA (k : String) (v : Int) : List (String × Int) → List (String × Int)
  | [] => [(k, v)]
  | (k', v') :: rest => if k' = k then (k, v) :: rest else (k', v') :: setA k v rest

/-- String-valued variant of `setA`, for the normalised CSV record. -/
def setAS (k v : String) : List (String × String) → List (String × String)
  | [] => [(k, v)]
  | (k', v') :: rest => if k' = k then (k, v) :: rest else (k', v') :: setAS k v rest

/-- First-match lookup on a string association list. -/
def lookupAS (k : String) : List (String × String) → Option String
  | [] => none
  | (k', v) :: rest => if k' = k then some v else lookupAS k rest

/-- `Option.orElse` specialised and unbundled, for stating union-of-maps facts. -/
def orElseO (a b : Option Int) : Option Int :=
  match a with
  | some v => some v
  | none => b

/-- Python `str.lower` (ASCII case folding — every name the script lowers is
ASCII). -/
def pyLower (s : String) : String := String.mk (s.data.map Char.toLower)

/-- Python `str.strip()`. -/
def pyStrip (s : String) : String :=
  String.mk (((s.data.dropWhile Char.isWhitespace).reverse.dropWhile Char.isWhitespace).reverse)

/-- Python `str.split(sep)` for a one-character separator (the script splits
only on `;` and `/`). -/
def splitCharAux (sep : Char) : List Char → List Char → List String
  | [], acc => [String.mk acc.reverse]
  | c :: rest, acc =>
    if c = sep then String.mk acc.reverse :: splitCharAux sep rest []
    else splitCharAux sep rest (c :: acc)

def pySplit (sep : Char) (s : String) : List String := splitCharAux sep s.data []

/-- Decidable check that `needle` is a prefix of `hay`. -/
def isPre : List Char → List Char → Bool
  | [], _ => true
  | _ :: _, [] => false
  | a :: as, b :: bs => a = b && isPre as bs

/-- Decidable check that `needle` occurs as a contiguous substring of `hay`;
models Python's `needle in hay`. -/
def hasSub (hay needle : List Char) : Bool :=
  isPre needle hay ||
    match hay with
    | [] => false
    | _ :: t => hasSub t needle

/-- Python `str.splitlines` restricted to the `\n`, `\r\n` and `\r` line
terminators (no trailing empty line for a trailing terminator). -/
def splitlinesAux : List Char → List Char → List (List Char)
  | [], acc => if acc.isEmpty then [] else [acc.reverse]
  | '\r' :: '\n' :: rest, acc => acc.reverse :: splitlinesAux rest []
  | '\r' :: rest, acc => acc.reverse :: splitlinesAux rest []
  | '\n' :: rest, acc => acc.reverse :: splitlinesAux rest []
  | c :: rest, acc => splitlinesAux rest (c :: acc)

/-- `out.splitlines()`. -/
def pyLines (s : String) : List String :=
  (splitlinesAux s.data []).map fun cs => String.mk cs

/-- The JSON values the script's remote collaborator produces.  Numbers are
restricted to integers (every numeric field the script reads is an id). -/
inductive Json where
  | null : Json
  | bool : Bool → Json
  | num : Int → Json
  | str : String → Json
  | arr : List Json → Json
  | obj : List (String × Json) → Json

/-- Lookup in a decoded JSON object.  The parser below keeps the last
occurrence of a duplicated key, as `json.loads` does, by folding from the
left with replacement, so first-match lookup is dict lookup. -/
def lookupAJ (k : String) : List (String × Json) → Option Json
  | [] => none
  | (k', v) :: rest => if k' = k then some v else lookupAJ k rest

/-- Key replacement while decoding an object (later duplicate key wins). -/
def setAJ (k : String) (v : Json) : List (String × Json) → List (String × Json)
  | [] => [(k, v)]
  | (k', v') :: rest => if k' = k then (k, v) :: rest else (k', v') :: setAJ k v rest

def jsonWs (c : Char) : Bool :=
  c = ' ' || c = '\t' || c = '\n' || c = '\r'

def skipWs : List Char → List Char
  | [] => []
  | c :: rest => if jsonWs c then skipWs rest else c :: rest

def lbrace : Char := Char.ofNat 123

def rbrace : Char := Char.ofNat 125

/-- Decode a JSON string body (after the opening quote), returning the string
and the remaining input.  Supports the escapes the script's data can carry. -/
def parseStringAux : List Char → List Char → Option (String × List Char)
  | [], _ => none
  | c :: rest, acc =>
    if c = '"' then some (String.mk acc.reverse, rest)
    else if c = '\\' then
      match rest with
      | [] => none
      | e :: rest2 =>
        if e = '"' then parseStringAux rest2 ('"' :: acc)
        else if e = '\\' then parseStringAux rest2 ('\\' :: acc)
        else if e = '/' then parseStringAux rest2 ('/' :: acc)
        else if e = 'n' then parseStringAux rest2 ('\n' :: acc)
        else if e = 't' then parseStringAux rest2 ('\t' :: acc)
        else if e = 'r' then parseStringAux rest2 ('\r' :: acc)
        else none
    else parseStringAux rest (c :: acc)

def digitsToNat (ds : List Char) : Nat :=
  ds.foldl (fun n c => n * 10 + (c.toNat - 48)) 0

/-- Decode an integer numeral. -/
def parseNum (cs : List Char) : Option (Int × List Char) :=
  match cs with
  | '-' :: rest =>
    match List.span Char.isDigit rest with
    | ([], _) => none
    | (ds, r) => some (-(digitsToNat ds : Int), r)
  | _ =>
    match List.span Char.isDigit cs with
    | ([], _) => none
    | (ds, r) => some ((digitsToNat ds : Int), r)

/-- Intermediate results of the recursive-descent JSON decoder: one value,
array elements, or object members. -/
inductive PRes where
  | v : Json → PRes
  | vs : List Json → PRes
  | fs : List (String × Json) → PRes

/-- Decoding modes: one value, the elements of a non-empty array, or the
members of a non-empty object. -/
inductive PMode where
  | val : PMode
  | arrElems : PMode
  | objElems : PMode

/-- Fuel-indexed recursive-descent JSON decoder (single function so that the
kernel can evaluate it on concrete inputs). -/
def parseP : Nat → PMode → List Char → Option (PRes × List Char)
  | 0, _, _ => none
  | fuel + 1, .val, cs =>
    match skipWs cs with
    | [] => none
    | c :: rest =>
      if c = 'n' then
        match rest with
        | 'u' :: 'l' :: 'l' :: r => some (.v .null, r)
        | _ => none
      else if c = 't' then
        match rest with
        | 'r' :: 'u' :: 'e' :: r => some (.v (.bool true), r)
        | _ => none
      else if c = 'f' then
        match rest with
        | 'a' :: 'l' :: 's' :: 'e' :: r => some (.v (.bool false), r)
        | _ => none
      else if c = '"' then
        match parseStringAux rest [] with
        | some (s, r) => some (.v (.str s), r)
        | none => none
      else if c = '[' then
        match skipWs rest with
        | ']' :: r2 => some (.v (.arr []), r2)
        | r1 =>
          match parseP fuel .arrElems r1 with
          | some (.vs vals, r2) => some (.v (.arr vals), r2)
          | _ => none
      else if c = lbrace then
        match skipWs rest with
        | c2 :: r2 =>
          if c2 = rbrace then some (.v (.obj []), r2)
          else
            match parseP fuel .objElems (c2 :: r2) with
            | some (.fs mem, r3) => some (.v (.obj mem), r3)
            | _ => none
        | [] => none
      else
        match parseNum (c :: rest) with
        | some (n, r) => some (.v (.num n), r)
        | none => none
  | fuel + 1, .arrElems, cs =>
    match parseP fuel .val cs with
    | some (.v el, r) =>
      match skipWs r with
      | ',' :: r2 =>
        match parseP fuel .arrElems r2 with
        | some (.vs vals, r3) => some (.vs (el :: vals), r3)
        | _ => none
      | c :: r2 => if c = ']' then some (.vs [el], r2) else none
      | [] => none
    | _ => none
  | fuel + 1, .objElems, cs =>
    match skipWs cs with
    | '"' :: r =>
      match parseStringAux r [] with
      | none => none
      | some (k, r2) =>
        match skipWs r2 with
        | ':' :: r3 =>
          match parseP fuel .val r3 with
          | some (.v el, r4) =>
            match skipWs r4 with
            | ',' :: r5 =>
              match parseP fuel .objElems r5 with
              | some (.fs mem, r6) =>
                some (.fs (if (lookupAJ k mem).isSome then mem else (k, el) :: mem), r6)
              | _ => none
            | c :: r5 => if c = rbrace then some (.fs [(k, el)], r5) else none
            | [] => none
          | _ => none
        | _ => none
    | _ => none

/-- `json.loads`: decode one value and reject trailing data.  A duplicated
object key keeps its last value, as CPython's decoder does. -/
def parseJson (s : String) : Option Json :=
  match parseP (2 * s.length + 2) .val s.data with
  | some (.v v, rest) => if (skipWs rest).isEmpty then some v else none
  | _ => none

/-- Python `str(x)` on a decoded JSON value, as used on the `title` and
`html_url` fields.  Containers are rendered by a placeholder: no claim touches
`str()` of a list/dict-valued field. -/
def pyStr : Json → String
  | .str s => s
  | .num n => toString n
  | .bool b => if b then "True" else "False"
  | .null => "None"
  | .arr _ => "[...]"
  | .obj _ => "(dict)"

/-- Python `int(x)` on a decoded JSON value (`None` when it would raise). -/
def pyInt : Json → Option Int
  | .num n => some n
  | .bool b => some (if b then 1 else 0)
  | .str s =>
    match (pyStrip s).data with
    | '-' :: ds => if ds ≠ [] ∧ ds.all Char.isDigit then some (-(digitsToNat ds : Int)) else none
    | '+' :: ds => if ds ≠ [] ∧ ds.all Char.isDigit then some ((digitsToNat ds : Int)) else none
    | ds => if ds ≠ [] ∧ ds.all Char.isDigit then some ((digitsToNat ds : Int)) else none
  | _ => none

-- -------------------------- Data types --------------------------

/-- `IssueRow` (the dataclass): one unit of work, as produced by `read_csv`. -/
structure IssueRow where
  title : String
  body : String := ""
  labels : List String := []
  assignees : List String := []
  milestone : Option String := none
  project_owner : Option String := none
  project_number : Option Int := none
  state : String := "open"
  close_reason : Option String := none
deriving DecidableEq

/-- `split_list`: split a cell on `;`, strip each part, drop empties. -/
def split_list (cell : String) : List String :=
  if cell = "" then []
  else ((pySplit ';' cell).map pyStrip).filter (fun p => p ≠ "")

/-- One raw record as yielded by `csv.DictReader`: header/value pairs (a
missing value, Python `None`, is modelled by `""`, exactly what the script's
`(v or "").strip()` turns it into). -/
def RawRec : Type := List (String × String)

/-- The script's key normalisation: a dict comprehension over the raw record,
stripping and lower-casing keys and stripping values; a duplicated normalised
key keeps the last value. -/
def normalizeRec (r : RawRec) : List (String × String) :=
  r.foldl (fun acc kv => setAS (pyLower (pyStrip kv.1)) (pyStrip kv.2) acc) []

/-- `norm.get(key, "")`. -/
def normGetD (n : List (String × String)) (k : String) : String :=
  (lookupAS k n).getD ""

/-- `norm.get(key) or None`: `None` for a missing key or an empty value. -/
def normGetOpt (n : List (String × String)) (k : String) : Option String :=
  match lookupAS k n with
  | none => none
  | some v => if v = "" then none else some v

/-- The `state` cell as the script computes it:
`(norm.get("state") or "open").lower()`. -/
def stateOfRec (r : RawRec) : String :=
  (match normGetOpt (normalizeRec r) "state" with
    | none => "open"
    | some v => v) |> pyLower

/-- Build the `IssueRow` for one raw record (the body of the `read_csv` loop
after the title guard). -/
def rowOfRec (r : RawRec) : IssueRow :=
  let n := normalizeRec r
  let pn := normGetOpt n "project_number"
  { title := normGetD n "title"
  , body := normGetD n "body"
  , labels := split_list (normGetD n "labels")
  , assignees := split_list (normGetD n "assignees")
  , milestone := normGetOpt n "milestone"
  , project_owner := normGetOpt n "project_owner"
  , project_number :=
      match pn with
      | some s => if s ≠ "" ∧ s.data.all Char.isDigit then some ((digitsToNat s.data : Int)) else none
      | none => none
  , state := stateOfRec r
  , close_reason := normGetOpt n "close_reason" }

/-- `read_csv`: keep every record with a non-empty stripped title, in file
order (an empty record or one without a title is skipped with a diagnostic). -/
def read_csv (recs : List RawRec) : List IssueRow :=
  match recs with
  | [] => []
  | r :: rest =>
    if r.isEmpty then read_csv rest
    else if normGetD (normalizeRec r) "title" = "" then read_csv rest
    else rowOfRec r :: read_csv rest

-- -------------------------- Effects and exceptions --------------------------

/-- What a raised Python exception is, for this script: a `KeyboardInterrupt`
(not caught by `except Exception`) or an ordinary exception carrying its
message. -/
inductive Exc where
  | interrupt : Exc
  | err : String → Exc
deriving DecidableEq

/-- The observable result of one `run(cmd)` call: a user interrupt, or the
`(exit code, stdout, stderr)` triple. -/
def RunRes : Type := Except Unit (Int × String × String)

/-- The JSON payload `create_issue_via_api` builds: `title` always; `body`,
`labels`, `assignees` only when truthy; `milestone` only for a positive id. -/
structure IssuePayload where
  title : String
  body : Option String
  labels : Option (List String)
  assignees : Option (List String)
  milestone : Option Int
deriving DecidableEq

/-- The externally visible actions of the script: the five remote mutation
calls, and console output. -/
inductive Effect where
  | labelCreate : String → Effect
  | milestoneCreate : String → Effect
  | issueCreate : IssuePayload → Effect
  | projectItemAdd : String → Int → String → Effect
  | issueClose : String → String → Option String → Effect
  | print : String → Effect
deriving DecidableEq

/-- `True` exactly for console output, the only effect dry-run mode may have. -/
def isPrint : Effect → Bool
  | .print _ => true
  | _ => false

-- -------------------------- gh helpers --------------------------

/-- `gh_json`: raise on a non-zero exit status, then `json.loads` the stdout,
raising on a parse failure.  An interrupt during the call propagates. -/
def gh_json (r : RunRes) : Except Exc Json :=
  match r with
  | .error () => .error .interrupt
  | .ok (code, out, err) =>
    if code ≠ 0 then .error (.err ("Command failed: " ++ err))
    else
      match parseJson out with
      | some v => .ok v
      | none => .error (.err ("Failed to parse JSON. Output was: " ++ out))

/-- The `gh repo view --json nameWithOwner` branch of repository resolution. -/
def resolveRepoView (view : RunRes) : Except Exc String :=
  match gh_json view with
  | .error e => .error e
  | .ok (.obj fields) =>
    match lookupAJ "nameWithOwner" fields with
    | some (.str s) => .ok s
    | some _ => .error (.err "AttributeError: split")
    | none => .error (.err "Could not resolve current repository via gh repo view. Pass --repo.")
  | .ok _ => .error (.err "Could not resolve current repository via gh repo view. Pass --repo.")

/-- `ensure_repo_name_with_owner`: an explicitly passed (truthy) `--repo`
wins; otherwise query `gh repo view` and require a dict with a string
`nameWithOwner`. -/
def ensure_repo_name_with_owner (repoArg : Option String) (view : RunRes) : Except Exc String :=
  match repoArg with
  | some r => if r ≠ "" then .ok r else resolveRepoView view
  | none => resolveRepoView view

/-- `repo_full.split("/", 1)` with tuple unpacking into `(owner, repo_name)`;
raises when there is no `/`. -/
def split_owner (s : String) : Except Exc (String × String) :=
  match pySplit '/' s with
  | [] => .error (.err "ValueError: not enough values to unpack")
  | [_] => .error (.err "ValueError: not enough values to unpack")
  | x :: rest => .ok (x, String.intercalate "/" rest)

/-- `get_existing_labels`: `gh_json` the label list (errors propagate!); a
decoded value that is not a list degrades to `[]`; list items that are not
dicts are dropped, and each dict contributes its `name` value (default `""`). -/
def get_existing_labels (r : RunRes) : Except Exc (List String) :=
  match gh_json r with
  | .error e => .error e
  | .ok data =>
    .ok (match data with
      | .arr items =>
        items.filterMap fun it =>
          match it with
          | .obj fields =>
            some (match lookupAJ "name" fields with
              | some v => pyStr v
              | none => "")
          | _ => none
      | _ => [])

/-- The per-label loop of `ensure_labels`: skip labels already present
(case-insensitively), print in dry-run, otherwise issue the create call and
only warn on a non-zero status. -/
def ensure_labels_go (existing : List String) (dry : Bool) (createRes : String → RunRes) :
    List String → List Effect × Except Exc Unit
  | [] => ([], .ok ())
  | l :: rest =>
    if pyLower l ∈ existing then ensure_labels_go existing dry createRes rest
    else if dry then
      let r := ensure_labels_go existing dry createRes rest
      (Effect.print ("DRY-RUN: would create label '" ++ l ++ "'") :: r.1, r.2)
    else
      match createRes l with
      | .error () => ([Effect.labelCreate l], .error .interrupt)
      | .ok (code, _, errS) =>
        let r := ensure_labels_go existing dry createRes rest
        ((Effect.labelCreate l ::
            (if code ≠ 0 then [Effect.print ("WARN: failed to create label '" ++ l ++ "': " ++ errS)] else []))
          ++ r.1, r.2)

/-- `ensure_labels`: nothing to do for an empty list (before any remote
call); otherwise fetch the existing labels (failures propagate) and run the
per-label loop, which never fails on a create error. -/
def ensure_labels (labels : List String) (listRes : RunRes) (createRes : String → RunRes)
    (dry : Bool) : List Effect × Except Exc Unit :=
  if labels.isEmpty then ([], .ok ())
  else
    match get_existing_labels listRes with
    | .error e => ([], .error e)
    | .ok names => ensure_labels_go (names.map pyLower) dry createRes labels

/-- One entry of the milestone map, when the item is a dict with both a
`title` and a `number` key: `mapping[str(title).lower()] = int(number)`.
Fails exactly when `int()` would raise. -/
def milestoneEntryStep (m : List (String × Int)) (j : Json) : Except Exc (List (String × Int)) :=
  match j with
  | .obj fields =>
    match lookupAJ "title" fields, lookupAJ "number" fields with
    | some t, some n =>
      match pyInt n with
      | some i => .ok (setA (pyLower (pyStr t)) i m)
      | none => .error (.err "TypeError: int() argument")
    | _, _ => .ok m
  | _ => .ok m

/-- The mapping-building loop of `get_milestones_map`. -/
def milestones_fold (items : List Json) (m : List (String × Int)) :
    Except Exc (List (String × Int)) :=
  match items with
  | [] => .ok m
  | j :: rest =>
    match milestoneEntryStep m j with
    | .ok m' => milestones_fold rest m'
    | .error e => .error e

/-- Pure form of one mapping entry (defined exactly when `milestoneEntryStep`
succeeds; used only to state theorems). -/
def milestoneEntryApply (m : List (String × Int)) (j : Json) : List (String × Int) :=
  match j with
  | .obj fields =>
    match lookupAJ "title" fields, lookupAJ "number" fields with
    | some t, some n =>
      match pyInt n with
      | some i => setA (pyLower (pyStr t)) i m
      | none => m
    | _, _ => m
  | _ => m

/-- Pure form of the mapping-building loop (used only to state theorems). -/
def foldKV (m : List (String × Int)) (items : List Json) : List (String × Int) :=
  items.foldl milestoneEntryApply m

/-- `True` exactly when `milestoneEntryStep` cannot raise on this item. -/
def goodEntry : Json → Bool
  | .obj fields =>
    match lookupAJ "title" fields, lookupAJ "number" fields with
    | some _, some n => (pyInt n).isSome
    | _, _ => true
  | _ => true

/-- The line-merging fallback of `get_milestones_map`: strip each line, skip
empty lines, keep the elements of every line that decodes to a list, skip
everything else. -/
def milestoneLineItems (out : String) : List Json :=
  (pyLines out).foldl
    (fun acc line =>
      let l := pyStrip line
      if l = "" then acc
      else
        match parseJson l with
        | some (.arr xs) => acc ++ xs
        | _ => acc)
    []

/-- `get_milestones_map`: raise on a failed list call; decode the whole
output, falling back to line merging when that fails; then build the
lowercased-title → number map (non-list decodes yield the empty map). -/
def get_milestones_map (r : RunRes) : Except Exc (List (String × Int)) :=
  match r with
  | .error () => .error .interrupt
  | .ok (code, out, errS) =>
    if code ≠ 0 then .error (.err ("Failed to list milestones: " ++ errS))
    else
      let items : List Json :=
        match parseJson out with
        | some (.arr xs) => xs
        | some _ => []
        | none => milestoneLineItems out
      milestones_fold items []

/-- `ensure_milestone`: return the cached number for a known title; in
dry-run print and return the `-1` sentinel; otherwise POST the milestone and
return `int(data.get("number"))` from the response. -/
def ensure_milestone (title : String) (listRes createRes : RunRes) (dry : Bool) :
    List Effect × Except Exc Int :=
  match get_milestones_map listRes with
  | .error e => ([], .error e)
  | .ok m =>
    match lookupA (pyLower title) m with
    | some n => ([], .ok n)
    | none =>
      if dry then
        ([Effect.print ("DRY-RUN: would create milestone '" ++ title ++ "'")], .ok (-1))
      else
        match createRes with
        | .error () => ([Effect.milestoneCreate title], .error .interrupt)
        | .ok (code, out, errS) =>
          if code ≠ 0 then
            ([Effect.milestoneCreate title],
              .error (.err ("Failed to create milestone '" ++ title ++ "': " ++ errS)))
          else
            ([Effect.milestoneCreate title],
              match parseJson out with
              | some (.obj fields) =>
                match lookupAJ "number" fields with
                | some v =>
                  match pyInt v with
                  | some i => .ok i
                  | none => .error (.err "TypeError: int() argument")
                | none => .error (.err "TypeError: int() argument must not be None")
              | some _ => .error (.err "AttributeError: get")
              | none => .error (.err ("JSONDecodeError: " ++ out)))

/-- The payload `create_issue_via_api` builds from a row and the resolved
milestone number (`milestone` attached only when the number is truthy and
positive). -/
def buildPayload (row : IssueRow) (milestone_number : Option Int) : IssuePayload :=
  { title := row.title
  , body := if row.body = "" then none else some row.body
  , labels := if row.labels = [] then none else some row.labels
  , assignees := if row.assignees = [] then none else some row.assignees
  , milestone :=
      match milestone_number with
      | some n => if 0 < n then some n else none
      | none => none }

/-- JSON string literal, as `json.dumps` renders the payload fields. -/
def jsonStrLit (s : String) : String :=
  "\"" ++ String.mk
    (s.data.foldr
      (fun c acc =>
        (if c = '"' then ['\\', '"']
          else if c = '\\' then ['\\', '\\']
          else if c = '\n' then ['\\', 'n']
          else if c = '\t' then ['\\', 't']
          else if c = '\r' then ['\\', 'r']
          else [c]) ++ acc)
      []) ++ "\""

def jsonListLit (xs : List String) : String :=
  "[" ++ String.intercalate ", " (xs.map jsonStrLit) ++ "]"

/-- `json.dumps(payload)` (fields in insertion order). -/
def renderPayload (p : IssuePayload) : String :=
  "\x7b\"title\": " ++ jsonStrLit p.title
    ++ (match p.body with | some b => ", \"body\": " ++ jsonStrLit b | none => "")
    ++ (match p.labels with | some ls => ", \"labels\": " ++ jsonListLit ls | none => "")
    ++ (match p.assignees with | some a => ", \"assignees\": " ++ jsonListLit a | none => "")
    ++ (match p.milestone with | some m => ", \"milestone\": " ++ toString m | none => "")
    ++ "\x7d"

/-- `create_issue_via_api`: build the payload; in dry-run print it and return
the `(-1, "DRY-RUN")` sentinel before any remote call; otherwise POST it and
decode `number` and `html_url` from the response. -/
def create_issue_via_api (owner repo_name : String) (row : IssueRow)
    (milestone_number : Option Int) (dry_run : Bool) (remote : RunRes) :
    List Effect × Except Exc (Int × String) :=
  let payload := buildPayload row milestone_number
  if dry_run then
    ([Effect.print ("DRY-RUN: would POST JSON to repos/" ++ owner ++ "/" ++ repo_name ++ "/issues"),
      Effect.print (renderPayload payload)],
      .ok (-1, "DRY-RUN"))
  else
    match remote with
    | .error () => ([Effect.issueCreate payload], .error .interrupt)
    | .ok (code, out, errS) =>
      if code ≠ 0 then
        ([Effect.issueCreate payload],
          .error (.err ("Issue creation failed for '" ++ row.title ++ "': " ++ errS
            ++ "\nRequest: " ++ renderPayload payload)))
      else
        ([Effect.issueCreate payload],
          match parseJson out with
          | some (.obj fields) =>
            match lookupAJ "number" fields, lookupAJ "html_url" fields with
            | some nv, some uv =>
              match pyInt nv with
              | some n => .ok (n, pyStr uv)
              | none => .error (.err "ValueError: int() argument")
            | _, _ => .error (.err "KeyError")
          | some _ => .error (.err "TypeError: indices")
          | none => .error (.err ("JSONDecodeError: " ++ out)))

/-- The fixed transient-error marker substrings of `create_issue_with_retry`. -/
def transient_tokens : List String :=
  ["timeout", "timed out", "rate limit", "502", "503", "500", "network", "temporarily unavailable"]

/-- `any(token in str(e).lower() for token in [...])`. -/
def isTransient (e : String) : Bool :=
  transient_tokens.any fun t => hasSub (pyLower e).data t.data

/-- The retry loop of `create_issue_with_retry`, fuel-indexed so that the
kernel can evaluate it (the fuel chosen by the wrapper below provably never
runs out).  Per attempt it returns the accumulated effects, the slept
durations, the final attempt count and the final result; a failure is retried
only when the attempt cap is not reached, the error is transient, and dry-run
is off; an interrupt propagates uncaught. -/
def retry_go (f : Nat → List Effect × Except Exc (Int × String)) (dry : Bool) (retries : Int)
    (base : ℚ) : Nat → Nat → List Effect × List ℚ × Nat × Except Exc (Int × String)
  | 0, attempt => ((f attempt).1, [], attempt, (f attempt).2)
  | fuel' + 1, attempt =>
    match f attempt with
    | (effs, .ok v) => (effs, [], attempt, .ok v)
    | (effs, .error .interrupt) => (effs, [], attempt, .error .interrupt)
    | (effs, .error (.err e)) =>
      if retries ≤ (attempt : Int) ∨ isTransient e = false ∨ dry = true then
        (effs, [], attempt, .error (.err e))
      else
        let rest := retry_go f dry retries base fuel' (attempt + 1)
        (effs ++ Effect.print ("Retry " ++ toString attempt ++ " after error: " ++ e) :: rest.1,
          base * 2 ^ (attempt - 1) :: rest.2.1, rest.2.2.1, rest.2.2.2)

/-- `create_issue_with_retry`: run the retry loop from attempt 1.  The fuel
`retries.toNat + 1` exceeds the number of retries the attempt cap permits, so
the fuel-exhaustion branch is unreachable (`retry_go_spec` is proved for any
sufficient fuel). -/
def create_issue_with_retry (f : Nat → List Effect × Except Exc (Int × String)) (dry : Bool)
    (retries : Int) (base : ℚ) : List Effect × List ℚ × Nat × Except Exc (Int × String) :=
  retry_go f dry retries base (retries.toNat + 1) 1

/-- `add_issue_to_project_v2`: print in dry-run, otherwise run the item-add
call and raise on a non-zero status. -/
def add_issue_to_project_v2 (project_owner : String) (project_number : Int) (issue_url : String)
    (dry : Bool) (r : RunRes) : List Effect × Except Exc Unit :=
  if dry then
    ([Effect.print "DRY-RUN: would run:",
      Effect.print ("  gh project item-add " ++ toString project_number ++ " --owner "
        ++ project_owner ++ " --url " ++ issue_url)],
      .ok ())
  else
    match r with
    | .error () => ([Effect.projectItemAdd project_owner project_number issue_url], .error .interrupt)
    | .ok (code, _, errS) =>
      ([Effect.projectItemAdd project_owner project_number issue_url],
        if code ≠ 0 then
          .error (.err ("Failed to add issue to project " ++ project_owner ++ "/"
            ++ toString project_number ++ ": " ++ errS))
        else .ok ())

/-- `close_issue`: print in dry-run, otherwise run the close call (with the
optional `--reason`) and raise on a non-zero status. -/
def close_issue (target repo : String) (reason : Option String) (dry : Bool) (r : RunRes) :
    List Effect × Except Exc Unit :=
  if dry then
    ([Effect.print "DRY-RUN: would run:",
      Effect.print ("  gh issue close " ++ target ++ " -R " ++ repo
        ++ (match reason with | some rs => " --reason " ++ rs | none => ""))],
      .ok ())
  else
    match r with
    | .error () => ([Effect.issueClose target repo reason], .error .interrupt)
    | .ok (code, _, errS) =>
      ([Effect.issueClose target repo reason],
        if code ≠ 0 then .error (.err ("Failed to close issue " ++ target ++ ": " ++ errS))
        else .ok ())

-- -------------------------- Main flow --------------------------

/-- The run configuration (parsed flags) together with the oracle describing
what each external `gh` call would return.  Calls are deterministic in their
position: issue creation is indexed by row index and attempt number, project
attach and close by row index. -/
structure Env where
  csvExists : Bool
  dryRun : Bool
  noLabelCreate : Bool
  noMilestoneCreate : Bool
  retries : Int
  retryBaseDelay : ℚ
  repoArg : Option String
  repoView : RunRes
  labelList : RunRes
  labelCreate : String → RunRes
  milestoneList : RunRes
  milestoneCreate : String → RunRes
  issueCreate : Nat → Nat → RunRes
  projectAdd : Nat → RunRes
  closeRun : Nat → RunRes

/-- The attempt cap `main` hands to the retry wrapper: `max(1, args.retries)`. -/
def eff_retries (env : Env) : Int := max 1 env.retries

/-- The base delay `main` hands to the retry wrapper:
`max(0.1, args.retry_base_delay)`. -/
def eff_base_delay (env : Env) : ℚ := max (1 / 10) env.retryBaseDelay

/-- Sorted deduplicated union of all rows' labels:
`sorted({lbl for r in rows for lbl in r.labels})`. -/
def insertSorted (x : String) : List String → List String
  | [] => [x]
  | y :: rest => if x ≤ y then x :: y :: rest else y :: insertSorted x rest

def all_labels (rows : List IssueRow) : List String :=
  ((rows.flatMap IssueRow.labels).dedup).foldr insertSorted []

/-- The milestone cache (lowercased title → number), `None` until first use. -/
def MsMap : Type := List (String × Int)

/-- The body of `main`'s milestone handling once a cache value is available:
a cached title resolves directly; a missing one is either skipped
(`--no-milestone-create`) or ensured, storing the new number only when it is
positive (so the dry-run `-1` sentinel is never cached). -/
def milestone_branch (env : Env) (c : MsMap) (t : String) :
    List Effect × MsMap × Except Exc Unit :=
  let key := pyLower t
  if (lookupA key c).isSome then ([], c, .ok ())
  else if env.noMilestoneCreate then
    ([Effect.print ("INFO: milestone '" ++ t ++ "' missing; skipping milestone")], c, .ok ())
  else
    match ensure_milestone t env.milestoneList (env.milestoneCreate t) env.dryRun with
    | (effs, .error e) => (effs, c, .error e)
    | (effs, .ok msn) => (effs, if 0 < msn then setA key msn c else c, .ok ())

/-- Lines 344–356 of `main`: resolve the milestone number for a row, fetching
the cache on first use; returns the (possibly updated) cache and
`milestone_cache.get(key)`. -/
def resolve_milestone_step (env : Env) (cache : Option MsMap) (row : IssueRow) :
    List Effect × Option MsMap × Except Exc (Option Int) :=
  match row.milestone with
  | none => ([], cache, .ok none)
  | some t =>
    if t = "" then ([], cache, .ok none)
    else
      match (match cache with
        | some c => Except.ok c
        | none => get_milestones_map env.milestoneList) with
      | .error e => ([], cache, .error e)
      | .ok c =>
        match milestone_branch env c t with
        | (effs, c2, .error e) => (effs, some c2, .error e)
        | (effs, c2, .ok ()) => (effs, some c2, .ok (lookupA (pyLower t) c2))

/-- The Projects-v2 step: run only when both `project_owner` and
`project_number` are truthy. -/
def project_step (env : Env) (idx : Nat) (row : IssueRow) (url : String) :
    List Effect × Except Exc Unit :=
  match row.project_owner, row.project_number with
  | some po, some n =>
    if po ≠ "" ∧ n ≠ 0 then add_issue_to_project_v2 po n url env.dryRun (env.projectAdd idx)
    else ([], .ok ())
  | _, _ => ([], .ok ())

/-- The close step: run only when the row's declared state is `closed`. -/
def close_step (env : Env) (repoFull : String) (idx : Nat) (row : IssueRow) (url : String) :
    List Effect × Except Exc Unit :=
  if row.state = "closed" then close_issue url repoFull row.close_reason env.dryRun (env.closeRun idx)
  else ([], .ok ())

/-- The dry-run substitute URL `main` fabricates for subsequent steps. -/
def dryRunUrl (owner repoName : String) : String :=
  "https://github.com/" ++ owner ++ "/" ++ repoName ++ "/issues/<new>"

/-- The body of `main`'s per-row `try` block: milestone resolution, creation
with retry, project attach, close; the first raised exception aborts the
remaining steps of this row, and the `(idx, str(number), url)` success tuple
exists only when every step succeeded. -/
def process_row (env : Env) (owner repoName repoFull : String) (idx : Nat) (row : IssueRow)
    (cache : Option MsMap) : List Effect × Option MsMap × Except Exc (Nat × String × String) :=
  match resolve_milestone_step env cache row with
  | (e1, c', .error ex) => (e1, c', .error ex)
  | (e1, c', .ok mn) =>
    let R := create_issue_with_retry
      (fun a => create_issue_via_api owner repoName row mn env.dryRun (env.issueCreate idx a))
      env.dryRun (eff_retries env) (eff_base_delay env)
    match R.2.2.2 with
    | .error ex => (e1 ++ R.1, c', .error ex)
    | .ok (number, url0) =>
      let url := if env.dryRun then dryRunUrl owner repoName else url0
      match project_step env idx row url with
      | (e3, .error ex) => (e1 ++ R.1 ++ e3, c', .error ex)
      | (e3, .ok ()) =>
        match close_step env repoFull idx row url with
        | (e4, .error ex) => (e1 ++ R.1 ++ e3 ++ e4, c', .error ex)
        | (e4, .ok ()) => (e1 ++ R.1 ++ e3 ++ e4, c', .ok (idx, toString number, url))

/-- The failure-summary entry for a failed row:
`f"Row {idx} ('{row.title}') failed: {e}"`. -/
def row_fail_msg (idx : Nat) (title msg : String) : String :=
  "Row " ++ toString idx ++ " ('" ++ title ++ "') failed: " ++ msg

/-- The row loop of `main`, from row index `k`: every row is processed in
order, a failed row only contributes a failure message, and only an interrupt
stops the loop (returning `true`). -/
def driver_loop (env : Env) (owner repoName repoFull : String) :
    Nat → List IssueRow → Option MsMap →
    List Effect × List (Nat × String × String) × List String × Bool
  | _, [], _ => ([], [], [], false)
  | k, row :: rest, cache =>
    match process_row env owner repoName repoFull k row cache with
    | (effs, cache', res) =>
      match res with
      | .ok entry =>
        let r := driver_loop env owner repoName repoFull (k + 1) rest cache'
        (effs ++ r.1, entry :: r.2.1, r.2.2.1, r.2.2.2)
      | .error (.err m) =>
        let r := driver_loop env owner repoName repoFull (k + 1) rest cache'
        (effs ++ r.1, r.2.1, row_fail_msg k row.title m :: r.2.2.1, r.2.2.2)
      | .error .interrupt => (effs, [], [], true)

/-- How a whole run ends: `main` returns a code together with its success and
failure lists, or an exception escapes `main` (the interpreter then exits
with status 1), or a `KeyboardInterrupt` reaches the `__main__` guard. -/
inductive MainOutcome where
  | ret : Int → List (Nat × String × String) → List String → MainOutcome
  | exc : String → MainOutcome
  | intr : MainOutcome
deriving DecidableEq

/-- `main` (lines 296–404): missing file → 2; resolve the repository; parse
the rows (none → 0); pre-create the deduplicated label set unless suppressed
(an exception here escapes `main`); run the row loop; exit 1 exactly when the
failure list is non-empty.  Also returns every effect performed. -/
def main_flow (env : Env) (recs : List RawRec) : MainOutcome × List Effect :=
  if env.csvExists = false then (.ret 2 [] [], [])
  else
    match ensure_repo_name_with_owner env.repoArg env.repoView with
    | .error .interrupt => (.intr, [])
    | .error (.err m) => (.exc m, [])
    | .ok repoFull =>
      match split_owner repoFull with
      | .error .interrupt => (.intr, [])
      | .error (.err m) => (.exc m, [])
      | .ok (owner, repoName) =>
        let rows := read_csv recs
        if rows.isEmpty then (.ret 0 [] [], [])
        else
          match (if env.noLabelCreate then ([], Except.ok ())
            else ensure_labels (all_labels rows) env.labelList env.labelCreate env.dryRun) with
          | (effsL, .error .interrupt) => (.intr, effsL)
          | (effsL, .error (.err m)) => (.exc m, effsL)
          | (effsL, .ok ()) =>
            let r := driver_loop env owner repoName repoFull 1 rows none
            if r.2.2.2 then (.intr, effsL ++ r.1)
            else
              (.ret (if r.2.2.1.isEmpty then 0 else 1) r.2.1 r.2.2.1, effsL ++ r.1)

/-- The process exit status: `sys.exit(main())`, `130` for a
`KeyboardInterrupt` caught by the `__main__` guard, and the interpreter's
status `1` for an exception escaping `main`. -/
def process_exit : MainOutcome → Int
  | .ret c _ _ => c
  | .exc _ => 1
  | .intr => 130

/-- Concatenation of the element lists of the pages of a paginated response
(used only to state theorems). -/
def flattenParts (parts : List (List Json)) : List Json :=
  parts.foldr (fun a b => a ++ b) []

/-- The pages the line-merging fallback keeps: one page per line whose
stripped text decodes to a JSON array; every other line is skipped (used only
to state theorems). -/
def partsOf (out : String) : List (List Json) :=
  (pyLines out).filterMap fun line =>
    match parseJson (pyStrip line) with
    | some (.arr xs) => some xs
    | _ => none

/-- Lookup in the union of per-page milestone maps, a later page overriding an
earlier one (used only to state theorems). -/
def unionLookup (k : String) : List (List Json) → Option Int
  | [] => none
  | p :: ps => orElseO (unionLookup k ps) (lookupA k (foldKV [] p))

-- -------------------------- Concrete fixtures for witnesses --------------------------

/-- An attempt oracle whose first creation call fails with a transient `503`
error and whose second succeeds. -/
def fC2 : Nat → List Effect × Except Exc (Int × String) :=
  fun a => if a = 1 then ([], .error (.err "HTTP 503: service unavailable")) else ([], .ok (7, "https://e/7"))

/-- A benign oracle environment: every remote call succeeds; issue creation
returns issue 5 at `https://x`. -/
def envBase : Env :=
  { csvExists := true
  , dryRun := false
  , noLabelCreate := true
  , noMilestoneCreate := false
  , retries := 3
  , retryBaseDelay := 1
  , repoArg := some "o/r"
  , repoView := .ok (0, "", "")
  , labelList := .ok (0, "[]", "")
  , labelCreate := fun _ => .ok (0, "", "")
  , milestoneList := .ok (0, "[]", "")
  , milestoneCreate := fun _ => .ok (0, "", "")
  , issueCreate := fun _ _ => .ok (0, "\x7b\"number\": 5, \"html_url\": \"https://x\"\x7d", "")
  , projectAdd := fun _ => .ok (0, "", "")
  , closeRun := fun _ => .ok (0, "", "") }

/-- Environment where the remote close call fails. -/
def envC1 : Env := { envBase with closeRun := fun _ => .ok (1, "", "boom") }

def recsC1 : List RawRec := [[("title", "T"), ("state", "closed")]]

/-- Environment where the label-list call fails with an error status. -/
def envC3 : Env := { envBase with noLabelCreate := false, labelList := .ok (1, "", "boom") }

def recsC3 : List RawRec := [[("title", "T"), ("labels", "bug")]]

/-- Environment for a closed row carrying a milestone and a project board:
the milestone `M1` exists remotely (number 4), the project attach succeeds,
and the remote close call fails. -/
def envC1b : Env :=
  { envBase with
    milestoneList := .ok (0, "[\x7b\"title\": \"M1\", \"number\": 4\x7d]", "")
  , closeRun := fun _ => .ok (1, "", "boom") }

def recsC1b : List RawRec :=
  [[("title", "T"), ("state", "closed"), ("milestone", "M1"),
    ("project_owner", "acme"), ("project_number", "7")]]

/-- The single row `read_csv` yields for `recsC1b`. -/
def rowC1b : IssueRow :=
  rowOfRec [("title", "T"), ("state", "closed"), ("milestone", "M1"),
    ("project_owner", "acme"), ("project_number", "7")]

/-- Dry-run environment exercising every mutation-capable operation. -/
def envC4 : Env := { envBase with dryRun := true, noLabelCreate := false }

def recsC4 : List RawRec :=
  [[("title", "T"), ("labels", "bug"), ("milestone", "M1"), ("state", "closed"),
    ("close_reason", "completed"), ("project_owner", "acme"), ("project_number", "7")]]

/-- Environment where the label-list call fails (a setup failure before any
row is processed). -/
def envC5 : Env := { envBase with noLabelCreate := false, labelList := .ok (1, "", "no") }

def recsC5 : List RawRec := [[("title", "T"), ("labels", "bug")]]

/-- Environment whose input file is missing. -/
def envC5w : Env := { envBase with csvExists := false }

/-- Environment where creating the label `broken` fails. -/
def envC7 : Env :=
  { envBase with noLabelCreate := false, labelCreate := fun _ => .ok (1, "", "label exists") }

def recsC7 : List RawRec := [[("title", "T"), ("labels", "broken")]]

/-- Dry-run environment for the milestone-sentinel claim. -/
def envC8 : Env := { envBase with dryRun := true }

-- ==================== Theorems ====================

theorem isPre_iff (n h : List Char) : isPre n h = true ↔ n <+: h := by
  induction n generalizing h with
  | nil => simp [isPre]
  | cons a as ih =>
    cases h with
    | nil => simp [isPre]
    | cons b bs =>
      simp only [isPre, Bool.and_eq_true, decide_eq_true_eq, ih, List.cons_prefix_cons]

theorem hasSub_iff (h n : List Char) : hasSub h n = true ↔ n <:+: h := by
  induction h with
  | nil =>
    simp only [hasSub, List.infix_nil, Bool.or_eq_true, isPre_iff, List.prefix_nil]
    tauto
  | cons c t ih =>
    simp only [hasSub, Bool.or_eq_true, isPre_iff, ih, List.infix_cons_iff]

/-- One-step characterisation of the retry loop, for every sufficient fuel:
every attempt before the final one failed with a transient error below the
cap; the sleeps are exactly the exponential-backoff schedule; the result is
the final attempt's outcome; a dry run or a reached cap stops at once. -/
theorem retry_go_spec (f : Nat → List Effect × Except Exc (Int × String)) (dry : Bool)
    (retries : Int) (base : ℚ) :
    ∀ (fuel attempt : Nat), 1 ≤ attempt → (retries - (attempt : Int)).toNat ≤ fuel →
    attempt ≤ (retry_go f dry retries base fuel attempt).2.2.1
    ∧ (retries ≤ (attempt : Int) → (retry_go f dry retries base fuel attempt).2.2.1 = attempt)
    ∧ ((retry_go f dry retries base fuel attempt).2.2.1 : Int) ≤ max (attempt : Int) retries
    ∧ (dry = true → (retry_go f dry retries base fuel attempt).2.2.1 = attempt)
    ∧ (retry_go f dry retries base fuel attempt).2.1 =
        (List.range ((retry_go f dry retries base fuel attempt).2.2.1 - attempt)).map
          (fun i => base * 2 ^ (attempt - 1 + i))
    ∧ (retry_go f dry retries base fuel attempt).2.2.2 =
        (f (retry_go f dry retries base fuel attempt).2.2.1).2
    ∧ (∀ j, attempt ≤ j → j < (retry_go f dry retries base fuel attempt).2.2.1 →
        ∃ e, (f j).2 = .error (.err e) ∧ isTransient e = true ∧ (j : Int) < retries)
    ∧ (∀ e, (retry_go f dry retries base fuel attempt).2.2.2 = .error (.err e) →
        retries ≤ ((retry_go f dry retries base fuel attempt).2.2.1 : Int)
          ∨ isTransient e = false ∨ dry = true) := by
  intro fuel
  induction fuel with
  | zero =>
    intro attempt h1 hfu
    have hra : retries ≤ (attempt : Int) := by omega
    rcases hf : f attempt with ⟨effs, r⟩
    have hR : retry_go f dry retries base 0 attempt = (effs, [], attempt, r) := by
      simp [retry_go, hf]
    rw [hR]
    refine ⟨le_refl _, fun _ => rfl, le_max_left _ _, fun _ => rfl, by simp,
      by rw [hf], ?_, fun _ _ => Or.inl hra⟩
    intro j hj1 hj2
    exact absurd hj2 (by simp; omega)
  | succ fuel' ih =>
    intro attempt h1 hfu
    rcases hf : f attempt with ⟨effs, r⟩
    cases r with
    | ok v =>
      have hR : retry_go f dry retries base (fuel' + 1) attempt = (effs, [], attempt, .ok v) := by
        simp [retry_go, hf]
      rw [hR]
      refine ⟨le_refl _, fun _ => rfl, le_max_left _ _, fun _ => rfl, by simp,
        by rw [hf], ?_, ?_⟩
      · intro j hj1 hj2
        exact absurd hj2 (by simp; omega)
      · intro e he
        exact absurd he (by simp)
    | error ex =>
      cases ex with
      | interrupt =>
        have hR : retry_go f dry retries base (fuel' + 1) attempt =
            (effs, [], attempt, .error .interrupt) := by
          simp [retry_go, hf]
        rw [hR]
        refine ⟨le_refl _, fun _ => rfl, le_max_left _ _, fun _ => rfl, by simp,
          by rw [hf], ?_, ?_⟩
        · intro j hj1 hj2
          exact absurd hj2 (by simp; omega)
        · intro e he
          exact absurd he (by simp)
      | err e =>
        by_cases hcond : retries ≤ (attempt : Int) ∨ isTransient e = false ∨ dry = true
        · have hR : retry_go f dry retries base (fuel' + 1) attempt =
              (effs, [], attempt, .error (.err e)) := by
            simp only [retry_go, hf]
            rw [if_pos hcond]
          rw [hR]
          refine ⟨le_refl _, fun _ => rfl, le_max_left _ _, fun _ => rfl, by simp,
            by rw [hf], ?_, ?_⟩
          · intro j hj1 hj2
            exact absurd hj2 (by simp; omega)
          · intro e' he'
            simp only [Except.error.injEq, Exc.err.injEq] at he'
            subst he'
            exact hcond
        · have hlt : (attempt : Int) < retries := by
            push_neg at hcond
            exact hcond.1
          have htr : isTransient e = true := by
            push_neg at hcond
            simpa using hcond.2.1
          have hnd : dry = false := by
            push_neg at hcond
            simpa using hcond.2.2
          have hfu' : (retries - ((attempt + 1 : Nat) : Int)).toNat ≤ fuel' := by
            push_cast
            omega
          obtain ⟨ih1, ih2, ih3, ih4, ih5, ih6, ih7, ih8⟩ := ih (attempt + 1) (by omega) hfu'
          have hR : retry_go f dry retries base (fuel' + 1) attempt =
              (effs ++ Effect.print ("Retry " ++ toString attempt ++ " after error: " ++ e)
                  :: (retry_go f dry retries base fuel' (attempt + 1)).1,
                base * 2 ^ (attempt - 1) :: (retry_go f dry retries base fuel' (attempt + 1)).2.1,
                (retry_go f dry retries base fuel' (attempt + 1)).2.2.1,
                (retry_go f dry retries base fuel' (attempt + 1)).2.2.2) := by
            simp only [retry_go, hf]
            rw [if_neg hcond]
          rw [hR]
          refine ⟨?_, ?_, ?_, ?_, ?_, ih6, ?_, ih8⟩
          · show attempt ≤ (retry_go f dry retries base fuel' (attempt + 1)).2.2.1
            omega
          · intro hra
            exact absurd hra (by omega)
          · show ((retry_go f dry retries base fuel' (attempt + 1)).2.2.1 : Int) ≤
              max (attempt : Int) retries
            have hm1 : max ((attempt + 1 : Nat) : Int) retries = retries := by
              push_cast
              omega
            rw [hm1] at ih3
            have hm2 : max (attempt : Int) retries = retries := by omega
            omega
          · intro hd
            rw [hd] at hnd
            exact absurd hnd (by simp)
          · show base * 2 ^ (attempt - 1) :: (retry_go f dry retries base fuel' (attempt + 1)).2.1 =
              (List.range ((retry_go f dry retries base fuel' (attempt + 1)).2.2.1 - attempt)).map
                (fun i => base * 2 ^ (attempt - 1 + i))
            have hA : (retry_go f dry retries base fuel' (attempt + 1)).2.2.1 - attempt =
                ((retry_go f dry retries base fuel' (attempt + 1)).2.2.1 - (attempt + 1)) + 1 := by
              omega
            rw [hA, List.range_succ_eq_map, List.map_cons, List.map_map, ih5]
            congr 1
            apply List.map_congr_left
            intro i _
            simp only [Function.comp_apply]
            have h1 : attempt + 1 - 1 + i = attempt - 1 + Nat.succ i := by omega
            rw [h1]
          · intro j hj1 hj2
            have hj2' : j < (retry_go f dry retries base fuel' (attempt + 1)).2.2.1 := hj2
            rcases Nat.eq_or_lt_of_le hj1 with hje | hjlt
            · subst hje
              exact ⟨e, by rw [hf], htr, hlt⟩
            · exact ih7 j hjlt hj2'

/-- Instantiation of `retry_go_spec` at the wrapper's fuel and first attempt:
the chosen fuel is always sufficient. -/
theorem create_retry_spec (f : Nat → List Effect × Except Exc (Int × String)) (dry : Bool)
    (retries : Int) (base : ℚ) :
    1 ≤ (create_issue_with_retry f dry retries base).2.2.1
    ∧ (retries ≤ 1 → (create_issue_with_retry f dry retries base).2.2.1 = 1)
    ∧ ((create_issue_with_retry f dry retries base).2.2.1 : Int) ≤ max 1 retries
    ∧ (dry = true → (create_issue_with_retry f dry retries base).2.2.1 = 1)
    ∧ (create_issue_with_retry f dry retries base).2.1 =
        (List.range ((create_issue_with_retry f dry retries base).2.2.1 - 1)).map
          (fun i => base * 2 ^ i)
    ∧ (create_issue_with_retry f dry retries base).2.2.2 =
        (f (create_issue_with_retry f dry retries base).2.2.1).2
    ∧ (∀ j, 1 ≤ j → j < (create_issue_with_retry f dry retries base).2.2.1 →
        ∃ e, (f j).2 = .error (.err e) ∧ isTransient e = true ∧ (j : Int) < retries)
    ∧ (∀ e, (create_issue_with_retry f dry retries base).2.2.2 = .error (.err e) →
        retries ≤ ((create_issue_with_retry f dry retries base).2.2.1 : Int)
          ∨ isTransient e = false ∨ dry = true) := by
  have h := retry_go_spec f dry retries base (retries.toNat + 1) 1 (le_refl 1) (by omega)
  obtain ⟨h1, h2, h3, h4, h5, h6, h7, h8⟩ := h
  exact ⟨h1, fun hr => h2 (by exact_mod_cast hr), by simpa using h3, h4, by simpa using h5,
    h6, h7, h8⟩

/-- C2: `create_issue_with_retry` classifies a failure as transient exactly
when the error text case-insensitively contains one of the fixed marker
substrings; each retried attempt had failed with a transient error; the
sleeps are exactly `base × 2^(n-1)` for the n-th failure; the attempt count
never exceeds the configured cap; a non-transient first failure propagates at
once with no sleep; and a dry run never sleeps. -/
theorem claim_C2_retry_policy (f : Nat → List Effect × Except Exc (Int × String)) (dry : Bool)
    (retries : Int) (base : ℚ) (hr : 1 ≤ retries) :
    (∀ e, isTransient e = true ↔ ∃ t ∈ transient_tokens, t.data <:+: (pyLower e).data)
    ∧ 1 ≤ (create_issue_with_retry f dry retries base).2.2.1
    ∧ ((create_issue_with_retry f dry retries base).2.2.1 : Int) ≤ retries
    ∧ (create_issue_with_retry f dry retries base).2.1 =
        (List.range ((create_issue_with_retry f dry retries base).2.2.1 - 1)).map
          (fun i => base * 2 ^ i)
    ∧ (∀ j, 1 ≤ j → j < (create_issue_with_retry f dry retries base).2.2.1 →
        ∃ e, (f j).2 = .error (.err e) ∧ isTransient e = true)
    ∧ (create_issue_with_retry f dry retries base).2.2.2 =
        (f (create_issue_with_retry f dry retries base).2.2.1).2
    ∧ (∀ e, (f 1).2 = .error (.err e) → isTransient e = false →
        (create_issue_with_retry f dry retries base).2.2.1 = 1
          ∧ (create_issue_with_retry f dry retries base).2.1 = []
          ∧ (create_issue_with_retry f dry retries base).2.2.2 = .error (.err e))
    ∧ (dry = true → (create_issue_with_retry f dry retries base).2.2.1 = 1
        ∧ (create_issue_with_retry f dry retries base).2.1 = []) := by
  obtain ⟨h1, h2, h3, h4, h5, h6, h7, h8⟩ := create_retry_spec f dry retries base
  have hmax : max (1 : Int) retries = retries := by omega
  refine ⟨?_, h1, by rw [hmax] at h3; exact h3, h5, ?_, h6, ?_, ?_⟩
  · intro e
    simp [isTransient, List.any_eq_true, hasSub_iff]
  · intro j hj1 hj2
    obtain ⟨e, he, htr, _⟩ := h7 j hj1 hj2
    exact ⟨e, he, htr⟩
  · intro e hfe hnt
    have ha : (create_issue_with_retry f dry retries base).2.2.1 = 1 := by
      by_contra hne
      have hgt : 1 < (create_issue_with_retry f dry retries base).2.2.1 :=
        lt_of_le_of_ne h1 (Ne.symm hne)
      obtain ⟨e', he', htr', _⟩ := h7 1 (le_refl 1) hgt
      rw [hfe] at he'
      simp only [Except.error.injEq, Exc.err.injEq] at he'
      rw [he'] at hnt
      rw [htr'] at hnt
      exact absurd hnt (by simp)
    refine ⟨ha, ?_, ?_⟩
    · rw [h5, ha]
      simp
    · rw [h6, ha, hfe]
  · intro hd
    refine ⟨h4 hd, ?_⟩
    rw [h5, h4 hd]
    simp

/-- Witness for C2 at a concrete oracle: a transient `503` failure followed
by a success, with `retries = 3` and base delay `1/2`; the run makes two
attempts and sleeps exactly once, for `1/2 × 2^0` seconds. -/
theorem claim_C2_retry_policy_witness :
    (1 ≤ (create_issue_with_retry fC2 false 3 (1 / 2)).2.2.1
      ∧ ((create_issue_with_retry fC2 false 3 (1 / 2)).2.2.1 : Int) ≤ 3
      ∧ (create_issue_with_retry fC2 false 3 (1 / 2)).2.1 =
          (List.range ((create_issue_with_retry fC2 false 3 (1 / 2)).2.2.1 - 1)).map
            (fun i => (1 / 2 : ℚ) * 2 ^ i))
    ∧ (create_issue_with_retry fC2 false 3 (1 / 2)).2.2.1 = 2
    ∧ (create_issue_with_retry fC2 false 3 (1 / 2)).2.2.2 = .ok (7, "https://e/7") := by
  have h := claim_C2_retry_policy fC2 false 3 (1 / 2) (by norm_num)
  exact ⟨⟨h.2.1, h.2.2.1, h.2.2.2.1⟩, rfl, rfl⟩

/-- C10: for every configured `--retries` and `--retry-base-delay` value the
driver hands the retry wrapper a cap of at least 1 and a base delay of at
least 0.1 seconds, and the wrapper always makes at least one attempt. -/
theorem claim_C10_retry_floor (env : Env) :
    1 ≤ eff_retries env ∧ (1 / 10 : ℚ) ≤ eff_base_delay env ∧
    ∀ f dry, 1 ≤ (create_issue_with_retry f dry (eff_retries env) (eff_base_delay env)).2.2.1 := by
  refine ⟨le_max_left _ _, le_max_left _ _, ?_⟩
  intro f dry
  exact (create_retry_spec f dry (eff_retries env) (eff_base_delay env)).1

/-- Every row `read_csv` yields comes from some input record via `rowOfRec`
(and hence was not skipped: its title is non-empty). -/
theorem read_csv_mem (recs : List RawRec) (row : IssueRow) (hm : row ∈ read_csv recs) :
    row.title ≠ "" ∧ ∃ r ∈ recs, row = rowOfRec r := by
  induction recs with
  | nil => simp [read_csv] at hm
  | cons r rest ih =>
    simp only [read_csv] at hm
    by_cases he : r.isEmpty
    · rw [if_pos he] at hm
      obtain ⟨ht, rr, hrr, hv⟩ := ih hm
      exact ⟨ht, rr, List.mem_cons_of_mem _ hrr, hv⟩
    · rw [if_neg he] at hm
      by_cases htit : normGetD (normalizeRec r) "title" = ""
      · rw [if_pos htit] at hm
        obtain ⟨ht, rr, hrr, hv⟩ := ih hm
        exact ⟨ht, rr, List.mem_cons_of_mem _ hrr, hv⟩
      · rw [if_neg htit] at hm
        rcases List.mem_cons.mp hm with hrow | hrow
        · refine ⟨?_, r, List.mem_cons_self _ _, hrow⟩
          rw [hrow]
          exact htit
        · obtain ⟨ht, rr, hrr, hv⟩ := ih hrow
          exact ⟨ht, rr, List.mem_cons_of_mem _ hrr, hv⟩

/-- C9 (counterexample): a record with state cell `WIP` is parsed into a row
whose state is `wip`, which is neither of the two literals `open`/`closed`;
the parser performs no validation of the state field. -/
theorem claim_C9_counterexample :
    read_csv [[("title", "T"), ("state", "WIP")]] = [{ title := "T", state := "wip" }]
    ∧ ({ title := "T", state := "wip" } : IssueRow).state ≠ "open"
    ∧ ({ title := "T", state := "wip" } : IssueRow).state ≠ "closed" :=
  ⟨rfl, by decide, by decide⟩

/-- C9 (amended): every row the parser yields has a non-empty title, and its
state is exactly the lowercased state cell of its source record (defaulting
to `open` when the cell is missing or empty) — with no validation against the
`open`/`closed` set. -/
theorem claim_C9_row_invariant (recs : List RawRec) (row : IssueRow) (hm : row ∈ read_csv recs) :
    row.title ≠ "" ∧ ∃ r ∈ recs, row.state = stateOfRec r := by
  obtain ⟨ht, r, hr, hv⟩ := read_csv_mem recs row hm
  refine ⟨ht, r, hr, ?_⟩
  rw [hv]
  rfl

/-- Witness for the amended C9 at a concrete record. -/
theorem claim_C9_row_invariant_witness :
    ({ title := "T", state := "wip" } : IssueRow).title ≠ ""
    ∧ ∃ r ∈ [[("title", "T"), ("state", "WIP")]],
        ({ title := "T", state := "wip" } : IssueRow).state = stateOfRec r :=
  claim_C9_row_invariant [[("title", "T"), ("state", "WIP")]] _ (by decide)

/-- C3 (counterexample): an error status from the label-list call does not
degrade to an empty set — `gh_json` raises, the exception escapes `main`
(label pre-creation is not inside any row's `try`), and the Python process
exits with status 1: the run fails. -/
theorem claim_C3_counterexample :
    get_existing_labels (.ok (1, "", "boom")) = .error (.err "Command failed: boom")
    ∧ (main_flow envC3 recsC3).1 = .exc "Command failed: boom"
    ∧ process_exit (main_flow envC3 recsC3).1 = 1 :=
  ⟨rfl, rfl, rfl⟩

/-- C3 (amended): fetching existing labels degrades to the empty list exactly
when the call succeeds but returns JSON that is not a list; an error exit
status, or unparseable output, raises instead (and that exception is not
caught by the run). -/
theorem claim_C3_label_fetch (out errS : String) (code : Int) :
    (∀ v, parseJson out = some v → (∀ xs, v ≠ .arr xs) →
      get_existing_labels (.ok (0, out, errS)) = .ok [])
    ∧ (code ≠ 0 → get_existing_labels (.ok (code, out, errS)) =
        .error (.err ("Command failed: " ++ errS)))
    ∧ (parseJson out = none → get_existing_labels (.ok (0, out, errS)) =
        .error (.err ("Failed to parse JSON. Output was: " ++ out))) := by
  refine ⟨?_, ?_, ?_⟩
  · intro v hv hna
    simp only [get_existing_labels, gh_json]
    rw [if_neg (by simp)]
    rw [hv]
    cases v with
    | arr xs => exact absurd rfl (hna xs)
    | null => rfl
    | bool b => rfl
    | num n => rfl
    | str s => rfl
    | obj fields => rfl
  · intro hc
    simp only [get_existing_labels, gh_json]
    rw [if_pos hc]
  · intro hp
    simp only [get_existing_labels, gh_json]
    rw [if_neg (by simp)]
    rw [hp]

/-- Witness for the amended C3: a dict-shaped response degrades to the empty
list; an error status raises. -/
theorem claim_C3_label_fetch_witness :
    get_existing_labels (.ok (0, "\x7b\x7d", "")) = .ok []
    ∧ get_existing_labels (.ok (1, "x", "boom")) = .error (.err "Command failed: boom")
    ∧ get_existing_labels (.ok (0, "nope", "")) =
        .error (.err "Failed to parse JSON. Output was: nope") := by
  refine ⟨?_, ?_, ?_⟩
  · exact (claim_C3_label_fetch "\x7b\x7d" "" 1).1 (Json.obj []) rfl
      (fun xs h => Json.noConfusion h)
  · exact (claim_C3_label_fetch "x" "boom" 1).2.1 (by decide)
  · exact (claim_C3_label_fetch "nope" "" 0).2.2 rfl

theorem lookupA_setA_self (k : String) (v : Int) (m : List (String × Int)) :
    lookupA k (setA k v m) = some v := by
  induction m with
  | nil => simp [setA, lookupA]
  | cons kv rest ih =>
    obtain ⟨k2, v2⟩ := kv
    simp only [setA]
    by_cases h : k2 = k
    · rw [if_pos h]
      simp [lookupA]
    · rw [if_neg h]
      simp [lookupA, h, ih]

theorem lookupA_setA_ne (k k' : String) (v : Int) (m : List (String × Int)) (h : k' ≠ k) :
    lookupA k (setA k' v m) = lookupA k m := by
  induction m with
  | nil => simp [setA, lookupA, h]
  | cons kv rest ih =>
    obtain ⟨k2, v2⟩ := kv
    simp only [setA]
    by_cases h2 : k2 = k'
    · rw [if_pos h2]
      subst h2
      simp [lookupA, h]
    · rw [if_neg h2]
      simp [lookupA, ih]

theorem orElseO_assoc (a b c : Option Int) : orElseO a (orElseO b c) = orElseO (orElseO a b) c := by
  cases a <;> simp [orElseO]

/-- One mapping entry only adds or overrides its own key: looking up any key
after applying an entry to `m` is the override-union of the entry's
contribution with `m`. -/
theorem lookupA_entryApply (k : String) (j : Json) (m : List (String × Int)) :
    lookupA k (milestoneEntryApply m j) =
      orElseO (lookupA k (milestoneEntryApply [] j)) (lookupA k m) := by
  cases j with
  | obj fields =>
    simp only [milestoneEntryApply]
    cases ht : lookupAJ "title" fields with
    | none => simp [orElseO, lookupA]
    | some t =>
      cases hn : lookupAJ "number" fields with
      | none => simp [orElseO, lookupA]
      | some n =>
        cases hi : pyInt n with
        | none => simp [hi, orElseO, lookupA]
        | some i =>
          by_cases hk : pyLower (pyStr t) = k
          · subst hk
            simp [hi, lookupA_setA_self, orElseO]
          · simp only [hi]
            rw [lookupA_setA_ne _ _ _ _ hk, lookupA_setA_ne _ _ _ _ hk]
            simp [orElseO, lookupA]
  | null => simp [milestoneEntryApply, orElseO, lookupA]
  | bool b => simp [milestoneEntryApply, orElseO, lookupA]
  | num n => simp [milestoneEntryApply, orElseO, lookupA]
  | str s => simp [milestoneEntryApply, orElseO, lookupA]
  | arr xs => simp [milestoneEntryApply, orElseO, lookupA]

/-- Folding entries over any starting map looks up as the override-union of
the entries' own map over the start. -/
theorem lookupA_foldKV (k : String) (ys : List Json) :
    ∀ m, lookupA k (foldKV m ys) = orElseO (lookupA k (foldKV [] ys)) (lookupA k m) := by
  induction ys with
  | nil =>
    intro m
    simp [foldKV, lookupA, orElseO]
  | cons j t ih =>
    intro m
    have h1 : foldKV m (j :: t) = foldKV (milestoneEntryApply m j) t := rfl
    have h2 : foldKV ([] : List (String × Int)) (j :: t) =
        foldKV (milestoneEntryApply [] j) t := rfl
    rw [h1, h2, ih (milestoneEntryApply m j), ih (milestoneEntryApply [] j),
      lookupA_entryApply, orElseO_assoc]

/-- On items that cannot make `int()` raise, the mapping loop succeeds and
equals its pure form. -/
theorem entryStep_good (m : List (String × Int)) (j : Json) (hg : goodEntry j = true) :
    milestoneEntryStep m j = .ok (milestoneEntryApply m j) := by
  cases j with
  | obj fields =>
    simp only [goodEntry] at hg
    simp only [milestoneEntryStep, milestoneEntryApply]
    cases ht : lookupAJ "title" fields with
    | none => simp [ht]
    | some t =>
      cases hn : lookupAJ "number" fields with
      | none => simp [ht, hn]
      | some n =>
        rw [ht, hn] at hg
        obtain ⟨i, hi⟩ := Option.isSome_iff_exists.mp hg
        simp [ht, hn, hi]
  | null => rfl
  | bool b => rfl
  | num n => rfl
  | str s => rfl
  | arr xs => rfl

theorem milestones_fold_good (items : List Json) :
    ∀ m, (∀ j ∈ items, goodEntry j = true) → milestones_fold items m = .ok (foldKV m items) := by
  induction items with
  | nil =>
    intro m _
    rfl
  | cons j t ih =>
    intro m h
    have hg : goodEntry j = true := h j (List.mem_cons_self _ _)
    have hstep := entryStep_good m j hg
    simp only [milestones_fold, hstep]
    have hf : foldKV m (j :: t) = foldKV (milestoneEntryApply m j) t := rfl
    rw [hf]
    exact ih (milestoneEntryApply m j) (fun x hx => h x (List.mem_cons_of_mem _ hx))

/-- The line-merging fallback keeps exactly the concatenation of the
array-decoding lines, in order. -/
theorem milestoneLineItems_eq (out : String) :
    milestoneLineItems out = flattenParts (partsOf out) := by
  have key : ∀ (lines : List String) (acc : List Json),
      lines.foldl
        (fun acc line =>
          let l := pyStrip line
          if l = "" then acc
          else
            match parseJson l with
            | some (.arr xs) => acc ++ xs
            | _ => acc)
        acc
      = acc ++ flattenParts (lines.filterMap fun line =>
          match parseJson (pyStrip line) with
          | some (.arr xs) => some xs
          | _ => none) := by
    intro lines
    induction lines with
    | nil =>
      intro acc
      simp [flattenParts]
    | cons line t ih =>
      intro acc
      simp only [List.foldl_cons, List.filterMap_cons]
      by_cases hl : pyStrip line = ""
      · have hpe : parseJson "" = none := rfl
        rw [hl]
        simp only [if_pos rfl, hpe]
        exact ih acc
      · rw [if_neg hl]
        cases hp : parseJson (pyStrip line) with
        | none =>
          simp only [hp]
          exact ih acc
        | some v =>
          cases v with
          | arr xs =>
            simp only [hp, flattenParts, List.foldr_cons]
            rw [ih (acc ++ xs)]
            simp [flattenParts, List.append_assoc]
          | null => simp only [hp]; exact ih acc
          | bool b => simp only [hp]; exact ih acc
          | num n => simp only [hp]; exact ih acc
          | str s => simp only [hp]; exact ih acc
          | obj fields => simp only [hp]; exact ih acc
  have h := key (pyLines out) []
  simpa [milestoneLineItems, partsOf] using h

/-- The mapping over concatenated pages is the override-union of the
per-page mappings (later pages override earlier ones). -/
theorem lookupA_flattenParts (k : String) :
    ∀ parts, lookupA k (foldKV [] (flattenParts parts)) = unionLookup k parts := by
  intro parts
  induction parts with
  | nil => rfl
  | cons p ps ih =>
    have h1 : flattenParts (p :: ps) = p ++ flattenParts ps := rfl
    rw [h1]
    have h2 : foldKV ([] : List (String × Int)) (p ++ flattenParts ps) =
        foldKV (foldKV [] p) (flattenParts ps) := by
      simp [foldKV, List.foldl_append]
    rw [h2, lookupA_foldKV, ih]
    rfl

/-- C6 (counterexample): two well-formed JSON arrays concatenated on one line
(the shape `gh api --paginate` actually emits) defeat both the whole-output
decode and the line-merging fallback: the lookup map comes out empty instead
of the union, which would map `a` to 1 and `b` to 2. -/
theorem claim_C6_counterexample :
    parseJson "[\x7b\"title\": \"A\", \"number\": 1\x7d]" =
      some (.arr [Json.obj [("title", .str "A"), ("number", .num 1)]])
    ∧ parseJson "[\x7b\"title\": \"B\", \"number\": 2\x7d]" =
      some (.arr [Json.obj [("title", .str "B"), ("number", .num 2)]])
    ∧ get_milestones_map
        (.ok (0, "[\x7b\"title\": \"A\", \"number\": 1\x7d][\x7b\"title\": \"B\", \"number\": 2\x7d]", ""))
        = .ok []
    ∧ foldKV [] [Json.obj [("title", .str "A"), ("number", .num 1)],
        Json.obj [("title", .str "B"), ("number", .num 2)]] = [("a", 1), ("b", 2)]
    ∧ ([] : List (String × Int)) ≠ [("a", 1), ("b", 2)] :=
  ⟨rfl, rfl, rfl, rfl, by decide⟩

/-- C6 (amended): a milestone-list response delivered as one JSON array, or
as multiple newline-separated JSON arrays, yields the union of all entries'
lowercased-title → number mappings (later pages overriding earlier ones), and
a line that fails to decode to an array is skipped; arrays concatenated
without a newline between them are not recovered (the whole output then fails
to decode and no line decodes either, see the counterexample). -/
theorem claim_C6_milestone_pagination (out errS : String) :
    (∀ xs, parseJson out = some (.arr xs) → (∀ j ∈ xs, goodEntry j = true) →
      get_milestones_map (.ok (0, out, errS)) = .ok (foldKV [] xs))
    ∧ (parseJson out = none → (∀ j ∈ milestoneLineItems out, goodEntry j = true) →
      get_milestones_map (.ok (0, out, errS)) = .ok (foldKV [] (milestoneLineItems out))
      ∧ (∀ k, lookupA k (foldKV [] (milestoneLineItems out)) = unionLookup k (partsOf out))) := by
  constructor
  · intro xs hp hg
    simp only [get_milestones_map]
    rw [if_neg (by simp), hp]
    exact milestones_fold_good xs [] hg
  · intro hp hg
    constructor
    · simp only [get_milestones_map]
      rw [if_neg (by simp), hp]
      exact milestones_fold_good (milestoneLineItems out) [] hg
    · intro k
      rw [milestoneLineItems_eq, lookupA_flattenParts]

/-- Witness for the amended C6: a newline-separated two-page response yields
the union map. -/
theorem claim_C6_milestone_pagination_witness :
    get_milestones_map
        (.ok (0, "[\x7b\"title\": \"A\", \"number\": 1\x7d]\n[\x7b\"title\": \"B\", \"number\": 2\x7d]", ""))
      = .ok (foldKV []
          (milestoneLineItems "[\x7b\"title\": \"A\", \"number\": 1\x7d]\n[\x7b\"title\": \"B\", \"number\": 2\x7d]"))
    ∧ foldKV []
        (milestoneLineItems "[\x7b\"title\": \"A\", \"number\": 1\x7d]\n[\x7b\"title\": \"B\", \"number\": 2\x7d]")
      = [("a", 1), ("b", 2)] := by
  have h := (claim_C6_milestone_pagination
    "[\x7b\"title\": \"A\", \"number\": 1\x7d]\n[\x7b\"title\": \"B\", \"number\": 2\x7d]" "").2
    rfl (by decide)
  exact ⟨h.1, rfl⟩

/-- A successful row records its own index in the created tuple. -/
theorem process_row_idx (env : Env) (o rn rf : String) (k : Nat) (row : IssueRow)
    (cache : Option MsMap) (entry : Nat × String × String)
    (h : (process_row env o rn rf k row cache).2.2 = .ok entry) : entry.1 = k := by
  rcases hres : resolve_milestone_step env cache row with ⟨e1, c', res1⟩
  cases res1 with
  | error ex =>
    simp only [process_row, hres] at h
    exact absurd h (by simp)
  | ok mn =>
    simp only [process_row, hres] at h
    cases hcr : (create_issue_with_retry
        (fun a => create_issue_via_api o rn row mn env.dryRun (env.issueCreate k a))
        env.dryRun (eff_retries env) (eff_base_delay env)).2.2.2 with
    | error ex =>
      simp only [hcr] at h
      exact absurd h (by simp)
    | ok pr =>
      obtain ⟨num, url0⟩ := pr
      simp only [hcr] at h
      rcases hps : project_step env k row (if env.dryRun = true then dryRunUrl o rn else url0)
        with ⟨e3, res3⟩
      simp only [hps] at h
      cases res3 with
      | error ex => exact absurd h (by simp)
      | ok u =>
        obtain ⟨⟩ := u
        rcases hcs : close_step env rf k row (if env.dryRun = true then dryRunUrl o rn else url0)
          with ⟨e4, res4⟩
        simp only [hcs] at h
        cases res4 with
        | error ex => exact absurd h (by simp)
        | ok u2 =>
          obtain ⟨⟩ := u2
          simp only [Except.ok.injEq] at h
          rw [← h]

/-- When the loop is not interrupted, every parsed row is accounted for:
one created tuple or one failure message each. -/
theorem driver_loop_counts (env : Env) (o rn rf : String) :
    ∀ (rows : List IssueRow) (k : Nat) (cache : Option MsMap),
      (driver_loop env o rn rf k rows cache).2.2.2 = false →
      (driver_loop env o rn rf k rows cache).2.1.length
        + (driver_loop env o rn rf k rows cache).2.2.1.length = rows.length := by
  intro rows
  induction rows with
  | nil =>
    intro k cache _
    simp [driver_loop]
  | cons row rest ih =>
    intro k cache h
    rcases hpr : process_row env o rn rf k row cache with ⟨effs, cache', res⟩
    cases res with
    | ok entry =>
      simp only [driver_loop, hpr] at h ⊢
      have := ih (k + 1) cache' h
      simp only [List.length_cons]
      omega
    | error ex =>
      cases ex with
      | err m =>
        simp only [driver_loop, hpr] at h ⊢
        have := ih (k + 1) cache' h
        simp only [List.length_cons]
        omega
      | interrupt =>
        simp only [driver_loop, hpr] at h
        exact absurd h (by simp)

/-- Every created tuple of the loop starting at index `k` has index at
least `k`. -/
theorem driver_loop_created_ge (env : Env) (o rn rf : String) :
    ∀ (rows : List IssueRow) (k : Nat) (cache : Option MsMap) (e : Nat × String × String),
      e ∈ (driver_loop env o rn rf k rows cache).2.1 → k ≤ e.1 := by
  intro rows
  induction rows with
  | nil =>
    intro k cache e he
    simp [driver_loop] at he
  | cons row rest ih =>
    intro k cache e he
    rcases hpr : process_row env o rn rf k row cache with ⟨effs, cache', res⟩
    cases res with
    | ok entry =>
      simp only [driver_loop, hpr] at he
      rcases List.mem_cons.mp he with hee | hee
      · have h1 : entry.1 = k := process_row_idx env o rn rf k row cache entry (by rw [hpr])
        rw [hee]
        omega
      · have := ih (k + 1) cache' e hee
        omega
    | error ex =>
      cases ex with
      | err m =>
        simp only [driver_loop, hpr] at he
        have := ih (k + 1) cache' e he
        omega
      | interrupt =>
        simp only [driver_loop, hpr] at he
        exact absurd he (by simp)

/-- If the row at position `i` fails (for every cache state it might run
under), then a completed (uninterrupted) loop records exactly its failure
message and no created tuple carries its index. -/
theorem driver_loop_row_error (env : Env) (o rn rf : String) (row : IssueRow) (m : String) :
    ∀ (rows : List IssueRow) (i k : Nat) (cache : Option MsMap),
      rows.get? i = some row →
      (∀ c, ∃ effs c2, process_row env o rn rf (k + i) row c = (effs, c2, .error (.err m))) →
      (driver_loop env o rn rf k rows cache).2.2.2 = false →
      row_fail_msg (k + i) row.title m ∈ (driver_loop env o rn rf k rows cache).2.2.1
      ∧ ∀ e ∈ (driver_loop env o rn rf k rows cache).2.1, e.1 ≠ k + i := by
  intro rows
  induction rows with
  | nil =>
    intro i k cache hget _ _
    simp at hget
  | cons r rest ih =>
    intro i k cache hget H hflag
    cases i with
    | zero =>
      have hr : r = row := by simpa using hget
      subst hr
      obtain ⟨effs, c2, hpr⟩ := H cache
      have hpr0 : process_row env o rn rf k r cache = (effs, c2, .error (.err m)) := hpr
      simp only [driver_loop, hpr0] at hflag ⊢
      constructor
      · exact List.mem_cons_self _ _
      · intro e he
        have := driver_loop_created_ge env o rn rf rest (k + 1) c2 e he
        omega
    | succ j =>
      have hget' : rest.get? j = some row := by simpa using hget
      have H' : ∀ c, ∃ effs c2, process_row env o rn rf (k + 1 + j) row c =
          (effs, c2, .error (.err m)) := by
        intro c
        obtain ⟨effs, c2, hpr⟩ := H c
        refine ⟨effs, c2, ?_⟩
        have hkj : k + (j + 1) = k + 1 + j := by omega
        rw [← hkj]
        exact hpr
      rcases hpr : process_row env o rn rf k r cache with ⟨effs, cache', res⟩
      cases res with
      | ok entry =>
        simp only [driver_loop, hpr] at hflag ⊢
        obtain ⟨ihm, ihc⟩ := ih j (k + 1) cache' hget' H' hflag
        have hkj : k + 1 + j = k + (j + 1) := by omega
        rw [hkj] at ihm ihc
        refine ⟨ihm, ?_⟩
        intro e he
        rcases List.mem_cons.mp he with hee | hee
        · have h1 : entry.1 = k := process_row_idx env o rn rf k r cache entry (by rw [hpr])
          rw [hee]
          omega
        · exact ihc e hee
      | error ex =>
        cases ex with
        | err m2 =>
          simp only [driver_loop, hpr] at hflag ⊢
          obtain ⟨ihm, ihc⟩ := ih j (k + 1) cache' hget' H' hflag
          have hkj : k + 1 + j = k + (j + 1) := by omega
          rw [hkj] at ihm ihc
          exact ⟨List.mem_cons_of_mem _ ihm, ihc⟩
        | interrupt =>
          simp only [driver_loop, hpr] at hflag
          exact absurd hflag (by simp)

/-- Inversion of a completed run: when `main_flow` returns normally on a
non-empty row list, repository resolution succeeded, the loop ran without
interrupt, and the returned code and lists are the loop's. -/
theorem main_flow_ret (env : Env) (recs : List RawRec) (c : Int)
    (cr : List (Nat × String × String)) (er : List String)
    (h : (main_flow env recs).1 = .ret c cr er)
    (hcsv : env.csvExists = true)
    (hne : (read_csv recs).isEmpty = false) :
    ∃ rf o rn,
      ensure_repo_name_with_owner env.repoArg env.repoView = .ok rf
      ∧ split_owner rf = .ok (o, rn)
      ∧ (driver_loop env o rn rf 1 (read_csv recs) none).2.2.2 = false
      ∧ cr = (driver_loop env o rn rf 1 (read_csv recs) none).2.1
      ∧ er = (driver_loop env o rn rf 1 (read_csv recs) none).2.2.1
      ∧ c = (if er.isEmpty then 0 else 1) := by
  simp only [main_flow, hcsv] at h
  rw [if_neg (by simp)] at h
  cases hrr : ensure_repo_name_with_owner env.repoArg env.repoView with
  | error ex =>
    cases ex with
    | interrupt =>
      simp only [hrr] at h
      exact absurd h (by simp)
    | err m =>
      simp only [hrr] at h
      exact absurd h (by simp)
  | ok rf =>
    simp only [hrr] at h
    cases hsp : split_owner rf with
    | error ex =>
      cases ex with
      | interrupt =>
        simp only [hsp] at h
        exact absurd h (by simp)
      | err m =>
        simp only [hsp] at h
        exact absurd h (by simp)
    | ok pr =>
      obtain ⟨o, rn⟩ := pr
      simp only [hsp, hne, Bool.false_eq_true, if_false] at h
      rcases hfl : (if env.noLabelCreate = true then (([] : List Effect), Except.ok ())
          else ensure_labels (all_labels (read_csv recs)) env.labelList env.labelCreate
            env.dryRun) with ⟨effsL, resL⟩
      simp only [hfl] at h
      cases resL with
      | error ex =>
        cases ex with
        | interrupt => exact absurd h (by simp)
        | err m => exact absurd h (by simp)
      | ok u =>
        obtain ⟨⟩ := u
        dsimp only at h
        by_cases hfl2 : (driver_loop env o rn rf 1 (read_csv recs) none).2.2.2 = true
        · rw [if_pos hfl2] at h
          exact absurd h (by simp)
        · rw [if_neg hfl2] at h
          simp only [MainOutcome.ret.injEq] at h
          refine ⟨rf, o, rn, rfl, hsp, by simpa using hfl2, h.2.1.symm, h.2.2.symm, ?_⟩
          rw [← h.2.2]
          exact h.1.symm

/-- C1 (counterexample): a single closed-state row whose issue creation
succeeds (issue 5 at `https://x`) and whose remote close call fails ends the
run with the row in the failure summary but with an EMPTY created list: the
`(idx, number, url)` tuple is appended only after the close step, so the
successfully created issue is not recorded as created. -/
theorem claim_C1_counterexample :
    (main_flow envC1 recsC1).1 =
      .ret 1 [] ["Row 1 ('T') failed: Failed to close issue https://x: boom"] := rfl

/-- C1 (amended): for every row whose declared state is `closed` — with or
without a milestone or project board — if the steps before the close succeed
(milestone resolution, under any cache state the row may run under, and the
project attach when one is configured) and issue creation succeeds but the
remote close call fails, then a completed run records the row's close-failure
message in the failure list, and the created list contains NO tuple for that
row — the successfully created issue is not recorded as created. -/
theorem claim_C1_closed_row_failure (env : Env) (recs : List RawRec) (i : Nat) (row : IssueRow)
    (o rn rf : String) (c : Int) (cr : List (Nat × String × String)) (er : List String)
    (url : String) (codeE : Int) (outE errE : String)
    (hcsv : env.csvExists = true)
    (hrepo : ensure_repo_name_with_owner env.repoArg env.repoView = .ok rf)
    (hsplit : split_owner rf = .ok (o, rn))
    (hrow : (read_csv recs).get? i = some row)
    (hstate : row.state = "closed")
    (hdry : env.dryRun = false)
    (hsteps : ∀ cacheV : Option MsMap, ∃ (effs : List Effect) (c2 : Option MsMap)
        (mn : Option Int) (num : Int),
        resolve_milestone_step env cacheV row = (effs, c2, .ok mn)
        ∧ (create_issue_with_retry
            (fun a => create_issue_via_api o rn row mn false (env.issueCreate (1 + i) a))
            false (eff_retries env) (eff_base_delay env)).2.2.2 = .ok (num, url))
    (hproj : (project_step env (1 + i) row url).2 = .ok ())
    (hclose : env.closeRun (1 + i) = .ok (codeE, outE, errE))
    (hcode : codeE ≠ 0)
    (hret : (main_flow env recs).1 = .ret c cr er) :
    row_fail_msg (1 + i) row.title ("Failed to close issue " ++ url ++ ": " ++ errE) ∈ er
    ∧ ∀ e ∈ cr, e.1 ≠ 1 + i := by
  have hne : (read_csv recs).isEmpty = false := by
    cases hrl : read_csv recs with
    | nil =>
      rw [hrl] at hrow
      simp at hrow
    | cons a b => simp [hrl]
  obtain ⟨rf', o', rn', hrr', hsp', hflag, hcr', her', _⟩ :=
    main_flow_ret env recs c cr er hret hcsv hne
  have hrfeq : rf = rf' := by
    rw [hrepo] at hrr'
    exact (Except.ok.injEq _ _).mp hrr'
  subst hrfeq
  rw [hsplit] at hsp'
  have hpair : (o, rn) = (o', rn') := (Except.ok.injEq _ _).mp hsp'
  have ho : o = o' := congrArg Prod.fst hpair
  have hrn : rn = rn' := congrArg Prod.snd hpair
  subst ho
  subst hrn
  have H : ∀ cacheV, ∃ effs c2, process_row env o rn rf (1 + i) row cacheV =
      (effs, c2, .error (.err ("Failed to close issue " ++ url ++ ": " ++ errE))) := by
    intro cacheV
    obtain ⟨e1, c2, mn, num, hres, hcr⟩ := hsteps cacheV
    have h4 : close_step env rf (1 + i) row url =
        ([Effect.issueClose url rf row.close_reason],
          .error (.err ("Failed to close issue " ++ url ++ ": " ++ errE))) := by
      simp [close_step, hstate, close_issue, hdry, hclose, hcode]
    rcases hps : project_step env (1 + i) row url with ⟨e3, res3⟩
    have hres3 : res3 = .ok () := by
      have hp := hproj
      rw [hps] at hp
      exact hp
    subst hres3
    refine ⟨e1 ++ (create_issue_with_retry
        (fun a => create_issue_via_api o rn row mn false (env.issueCreate (1 + i) a))
        false (eff_retries env) (eff_base_delay env)).1
        ++ e3 ++ [Effect.issueClose url rf row.close_reason], c2, ?_⟩
    simp only [process_row, hres]
    simp only [hdry, hcr]
    rw [if_neg (by simp)]
    simp only [hps, h4]
  obtain ⟨hmsg, hnotin⟩ := driver_loop_row_error env o rn rf row
    ("Failed to close issue " ++ url ++ ": " ++ errE) (read_csv recs) i 1 none hrow H hflag
  constructor
  · rw [her']
    exact hmsg
  · intro e he
    rw [hcr'] at he
    exact hnotin e he

/-- Witness for the amended C1 at a concrete one-row run whose closed row
carries both a milestone (resolved remotely to number 4) and a project board
(attach succeeds); only the close call fails. -/
theorem claim_C1_closed_row_failure_witness :
    row_fail_msg 1 "T" "Failed to close issue https://x: boom" ∈
      ["Row 1 ('T') failed: Failed to close issue https://x: boom"]
    ∧ ∀ e ∈ ([] : List (Nat × String × String)), e.1 ≠ 1 := by
  have hpy : pyLower "M1" = "m1" := rfl
  have hm : rowC1b.milestone = some "M1" := rfl
  have hsteps : ∀ cacheV : Option MsMap, ∃ (effs : List Effect) (c2 : Option MsMap)
      (mn : Option Int) (num : Int),
      resolve_milestone_step envC1b cacheV rowC1b = (effs, c2, .ok mn)
      ∧ (create_issue_with_retry
          (fun a => create_issue_via_api "o" "r" rowC1b mn false (envC1b.issueCreate (1 + 0) a))
          false (eff_retries envC1b) (eff_base_delay envC1b)).2.2.2 = .ok (num, "https://x") := by
    intro cacheV
    cases cacheV with
    | none => exact ⟨[], some [("m1", 4)], some 4, 5, rfl, rfl⟩
    | some cmap =>
      cases hl : lookupA "m1" cmap with
      | some v =>
        refine ⟨[], some cmap, some v, 5, ?_, rfl⟩
        have hb : milestone_branch envC1b cmap "M1" = ([], cmap, .ok ()) := by
          simp [milestone_branch, hpy, hl]
        simp only [resolve_milestone_step, hm]
        rw [if_neg (by decide)]
        simp only [hb]
        rw [hpy, hl]
      | none =>
        have hens : ensure_milestone "M1" envC1b.milestoneList (envC1b.milestoneCreate "M1")
            envC1b.dryRun = ([], .ok 4) := rfl
        have hb : milestone_branch envC1b cmap "M1" = ([], setA "m1" 4 cmap, .ok ()) := by
          simp [milestone_branch, hpy, hl, hens,
            (show envC1b.noMilestoneCreate = false from rfl)]
        refine ⟨[], some (setA "m1" 4 cmap), some 4, 5, ?_, rfl⟩
        simp only [resolve_milestone_step, hm]
        rw [if_neg (by decide)]
        simp only [hb]
        rw [hpy, lookupA_setA_self]
  have h := claim_C1_closed_row_failure envC1b recsC1b 0 rowC1b "o" "r" "o/r" 1 []
    ["Row 1 ('T') failed: Failed to close issue https://x: boom"]
    "https://x" 1 "" "boom" rfl rfl rfl rfl rfl rfl hsteps rfl rfl (by decide) rfl
  exact h

/-- C5 (amended): a missing input file exits 2 before anything else; a run
with no parsed rows (and successful repository resolution) exits 0; a
completed run exits 0 exactly when its failure list is empty and 1 otherwise,
having accounted for every parsed row as either a created tuple or a failure
message; an exception escaping `main` ends the process with status 1 (so exit
1 does not imply a row failure — see the counterexample); a user interrupt
exits 130. -/
theorem claim_C5_driver_exit_codes (env : Env) (recs : List RawRec) (c : Int)
    (cr : List (Nat × String × String)) (er : List String) (rf o rn m : String) :
    (env.csvExists = false → main_flow env recs = (.ret 2 [] [], []))
    ∧ (env.csvExists = true → ensure_repo_name_with_owner env.repoArg env.repoView = .ok rf →
        split_owner rf = .ok (o, rn) → read_csv recs = [] →
        main_flow env recs = (.ret 0 [] [], []))
    ∧ (env.csvExists = true → (main_flow env recs).1 = .ret c cr er →
        c = (if er.isEmpty then 0 else 1) ∧ cr.length + er.length = (read_csv recs).length)
    ∧ ((main_flow env recs).1 = .exc m → process_exit (main_flow env recs).1 = 1)
    ∧ ((main_flow env recs).1 = .intr → process_exit (main_flow env recs).1 = 130) := by
  refine ⟨?_, ?_, ?_, ?_, ?_⟩
  · intro h
    simp [main_flow, h]
  · intro hcsv hrepo hsplit hempty
    simp [main_flow, hcsv, hrepo, hsplit, hempty]
  · intro hcsv hret
    by_cases hn : (read_csv recs).isEmpty = true
    · have hrows : read_csv recs = [] := by
        cases hrl : read_csv recs with
        | nil => rfl
        | cons a b =>
          rw [hrl] at hn
          simp at hn
      simp only [main_flow, hcsv] at hret
      rw [if_neg (by simp)] at hret
      cases hrr : ensure_repo_name_with_owner env.repoArg env.repoView with
      | error ex =>
        cases ex with
        | interrupt =>
          simp only [hrr] at hret
          exact absurd hret (by simp)
        | err m2 =>
          simp only [hrr] at hret
          exact absurd hret (by simp)
      | ok rf2 =>
        simp only [hrr] at hret
        cases hsp : split_owner rf2 with
        | error ex =>
          cases ex with
          | interrupt =>
            simp only [hsp] at hret
            exact absurd hret (by simp)
          | err m2 =>
            simp only [hsp] at hret
            exact absurd hret (by simp)
        | ok pr =>
          obtain ⟨o2, rn2⟩ := pr
          simp only [hsp, hrows] at hret
          simp only [List.isEmpty_nil, if_true] at hret
          simp only [MainOutcome.ret.injEq] at hret
          obtain ⟨hc, hcr, her⟩ := hret
          rw [← hc, ← hcr, ← her, hrows]
          simp
    · have hne : (read_csv recs).isEmpty = false := by simpa using hn
      obtain ⟨rf2, o2, rn2, _, _, hflag, hcr, her, hc⟩ :=
        main_flow_ret env recs c cr er hret hcsv hne
      refine ⟨hc, ?_⟩
      rw [hcr, her]
      exact driver_loop_counts env o2 rn2 rf2 (read_csv recs) 1 none hflag
  · intro h
    rw [h]
    rfl
  · intro h
    rw [h]
    rfl

/-- C5 (counterexample): when the label-list call fails during pre-creation,
the exception escapes `main` before any row is processed; the Python process
exits with status 1 although no row failed (the run has a parsed row that was
never handed to the loop), so exit status 1 does not imply a row failure. -/
theorem claim_C5_counterexample :
    (main_flow envC5 recsC5).1 = .exc "Command failed: no"
    ∧ process_exit (main_flow envC5 recsC5).1 = 1
    ∧ read_csv recsC5 ≠ [] :=
  ⟨rfl, rfl, by decide⟩

/-- Witness for the amended C5: the missing-file exit and a completed
one-row run where the created/failure counts add up. -/
theorem claim_C5_driver_exit_codes_witness :
    main_flow envC5w [] = (.ret 2 [] [], [])
    ∧ ((0 : Int) = (if ([] : List String).isEmpty then 0 else 1)
        ∧ ([(1, "5", "https://x")] : List (Nat × String × String)).length
            + ([] : List String).length = (read_csv recsC1).length) := by
  constructor
  · exact (claim_C5_driver_exit_codes envC5w [] 0 [] [] "" "" "" "").1 rfl
  · exact (claim_C5_driver_exit_codes envBase recsC1 0 [(1, "5", "https://x")] [] "" "" "" "").2.2.1
      rfl rfl

theorem viaapi_dry_prints (o rn : String) (row : IssueRow) (mn : Option Int) (remote : RunRes) :
    ∀ x ∈ (create_issue_via_api o rn row mn true remote).1, isPrint x = true := by
  intro x hx
  simp only [create_issue_via_api, if_pos] at hx
  simp only [List.mem_cons, List.mem_singleton] at hx
  rcases hx with h | h
  · rw [h]
    rfl
  · rcases h with h | h
    · rw [h]
      rfl
    · exact absurd h (by simp)

theorem retry_go_prints (f : Nat → List Effect × Except Exc (Int × String)) (dry : Bool)
    (retries : Int) (base : ℚ) (hf : ∀ a x, x ∈ (f a).1 → isPrint x = true) :
    ∀ (fuel attempt : Nat) (x : Effect),
      x ∈ (retry_go f dry retries base fuel attempt).1 → isPrint x = true := by
  intro fuel
  induction fuel with
  | zero =>
    intro attempt x hx
    simp only [retry_go] at hx
    exact hf attempt x hx
  | succ fuel' ih =>
    intro attempt x hx
    rcases hfa : f attempt with ⟨effs, r⟩
    have heffs : effs = (f attempt).1 := by rw [hfa]
    cases r with
    | ok v =>
      simp only [retry_go, hfa] at hx
      exact hf attempt x (heffs ▸ hx)
    | error ex =>
      cases ex with
      | interrupt =>
        simp only [retry_go, hfa] at hx
        exact hf attempt x (heffs ▸ hx)
      | err e =>
        by_cases hcond : retries ≤ (attempt : Int) ∨ isTransient e = false ∨ dry = true
        · simp only [retry_go, hfa] at hx
          rw [if_pos hcond] at hx
          exact hf attempt x (heffs ▸ hx)
        · simp only [retry_go, hfa] at hx
          rw [if_neg hcond] at hx
          simp only [List.mem_append, List.mem_cons] at hx
          rcases hx with h | h | h
          · exact hf attempt x (heffs ▸ h)
          · rw [h]
            rfl
          · exact ih (attempt + 1) x h

theorem create_retry_prints (f : Nat → List Effect × Except Exc (Int × String)) (dry : Bool)
    (retries : Int) (base : ℚ) (hf : ∀ a x, x ∈ (f a).1 → isPrint x = true) :
    ∀ x ∈ (create_issue_with_retry f dry retries base).1, isPrint x = true :=
  fun x hx => retry_go_prints f dry retries base hf (retries.toNat + 1) 1 x hx

theorem ensure_milestone_dry_prints (t : String) (listRes createRes : RunRes) :
    ∀ x ∈ (ensure_milestone t listRes createRes true).1, isPrint x = true := by
  intro x hx
  simp only [ensure_milestone] at hx
  cases hgm : get_milestones_map listRes with
  | error e =>
    simp only [hgm] at hx
    exact absurd hx (by simp)
  | ok m =>
    simp only [hgm] at hx
    cases hlk : lookupA (pyLower t) m with
    | some n =>
      simp only [hlk] at hx
      exact absurd hx (by simp)
    | none =>
      simp only [hlk, if_pos] at hx
      simp only [List.mem_singleton] at hx
      rw [hx]
      rfl

theorem milestone_branch_dry_prints (env : Env) (c : MsMap) (t : String)
    (hd : env.dryRun = true) : ∀ x ∈ (milestone_branch env c t).1, isPrint x = true := by
  intro x hx
  simp only [milestone_branch] at hx
  by_cases h1 : (lookupA (pyLower t) c).isSome = true
  · rw [if_pos h1] at hx
    exact absurd hx (by simp)
  · rw [if_neg h1] at hx
    by_cases h2 : env.noMilestoneCreate = true
    · rw [if_pos h2] at hx
      simp only [List.mem_singleton] at hx
      rw [hx]
      rfl
    · rw [if_neg h2] at hx
      rcases hem : ensure_milestone t env.milestoneList (env.milestoneCreate t) env.dryRun
        with ⟨effs, r⟩
      rw [hd] at hem
      have heffs : effs = (ensure_milestone t env.milestoneList (env.milestoneCreate t) true).1 := by
        rw [hem]
      rw [← hd] at hem
      simp only [hem] at hx
      cases r with
      | error e =>
        exact ensure_milestone_dry_prints t _ _ x (heffs ▸ hx)
      | ok msn =>
        exact ensure_milestone_dry_prints t _ _ x (heffs ▸ hx)

theorem resolve_dry_prints (env : Env) (cache : Option MsMap) (row : IssueRow)
    (hd : env.dryRun = true) :
    ∀ x ∈ (resolve_milestone_step env cache row).1, isPrint x = true := by
  intro x hx
  simp only [resolve_milestone_step] at hx
  cases hm : row.milestone with
  | none =>
    simp only [hm] at hx
    exact absurd hx (by simp)
  | some t =>
    simp only [hm] at hx
    by_cases ht : t = ""
    · rw [if_pos ht] at hx
      exact absurd hx (by simp)
    · rw [if_neg ht] at hx
      cases hc : (match cache with
        | some c => Except.ok c
        | none => get_milestones_map env.milestoneList) with
      | error e =>
        simp only [hc] at hx
        exact absurd hx (by simp)
      | ok cval =>
        simp only [hc] at hx
        rcases hb : milestone_branch env cval t with ⟨effs, c2, r⟩
        have heffs : effs = (milestone_branch env cval t).1 := by rw [hb]
        simp only [hb] at hx
        cases r with
        | error e => exact milestone_branch_dry_prints env cval t hd x (heffs ▸ hx)
        | ok u => exact milestone_branch_dry_prints env cval t hd x (heffs ▸ hx)

theorem project_step_dry_prints (env : Env) (k : Nat) (row : IssueRow) (url : String)
    (hd : env.dryRun = true) : ∀ x ∈ (project_step env k row url).1, isPrint x = true := by
  intro x hx
  simp only [project_step] at hx
  cases hpo : row.project_owner with
  | none =>
    simp only [hpo] at hx
    exact absurd hx (by simp)
  | some po =>
    cases hpn : row.project_number with
    | none =>
      simp only [hpo, hpn] at hx
      exact absurd hx (by simp)
    | some n =>
      simp only [hpo, hpn] at hx
      by_cases hcond : po ≠ "" ∧ n ≠ 0
      · rw [if_pos hcond] at hx
        simp only [add_issue_to_project_v2, hd, if_pos] at hx
        simp only [List.mem_cons, List.mem_singleton] at hx
        rcases hx with h | h
        · rw [h]
          rfl
        · rcases h with h | h
          · rw [h]
            rfl
          · exact absurd h (by simp)
      · rw [if_neg hcond] at hx
        exact absurd hx (by simp)

theorem close_step_dry_prints (env : Env) (rf : String) (k : Nat) (row : IssueRow) (url : String)
    (hd : env.dryRun = true) : ∀ x ∈ (close_step env rf k row url).1, isPrint x = true := by
  intro x hx
  simp only [close_step] at hx
  by_cases hs : row.state = "closed"
  · rw [if_pos hs] at hx
    simp only [close_issue, hd, if_pos] at hx
    simp only [List.mem_cons, List.mem_singleton] at hx
    rcases hx with h | h
    · rw [h]
      rfl
    · rcases h with h | h
      · rw [h]
        rfl
      · exact absurd h (by simp)
  · rw [if_neg hs] at hx
    exact absurd hx (by simp)

theorem process_row_dry_prints (env : Env) (o rn rf : String) (k : Nat) (row : IssueRow)
    (cache : Option MsMap) (hd : env.dryRun = true) :
    ∀ x ∈ (process_row env o rn rf k row cache).1, isPrint x = true := by
  intro x hx
  rcases hres : resolve_milestone_step env cache row with ⟨e1, c', res1⟩
  have he1 : e1 = (resolve_milestone_step env cache row).1 := by rw [hres]
  cases res1 with
  | error ex =>
    simp only [process_row, hres] at hx
    exact resolve_dry_prints env cache row hd x (he1 ▸ hx)
  | ok mn =>
    simp only [process_row, hres] at hx
    have hfprints : ∀ a x, x ∈ (create_issue_via_api o rn row mn env.dryRun
        (env.issueCreate k a)).1 → isPrint x = true := by
      intro a y hy
      rw [hd] at hy
      exact viaapi_dry_prints o rn row mn (env.issueCreate k a) y hy
    have hRp := create_retry_prints
      (fun a => create_issue_via_api o rn row mn env.dryRun (env.issueCreate k a))
      env.dryRun (eff_retries env) (eff_base_delay env) hfprints
    cases hcr : (create_issue_with_retry
        (fun a => create_issue_via_api o rn row mn env.dryRun (env.issueCreate k a))
        env.dryRun (eff_retries env) (eff_base_delay env)).2.2.2 with
    | error ex =>
      simp only [hcr] at hx
      simp only [List.mem_append] at hx
      rcases hx with h | h
      · exact resolve_dry_prints env cache row hd x (he1 ▸ h)
      · exact hRp x h
    | ok pr =>
      obtain ⟨num, url0⟩ := pr
      simp only [hcr] at hx
      rcases hps : project_step env k row (if env.dryRun = true then dryRunUrl o rn else url0)
        with ⟨e3, res3⟩
      have he3 : e3 = (project_step env k row
          (if env.dryRun = true then dryRunUrl o rn else url0)).1 := by rw [hps]
      simp only [hps] at hx
      cases res3 with
      | error ex =>
        simp only [List.mem_append] at hx
        rcases hx with (h | h) | h
        · exact resolve_dry_prints env cache row hd x (he1 ▸ h)
        · exact hRp x h
        · exact project_step_dry_prints env k row _ hd x (he3 ▸ h)
      | ok u =>
        obtain ⟨⟩ := u
        rcases hcs : close_step env rf k row (if env.dryRun = true then dryRunUrl o rn else url0)
          with ⟨e4, res4⟩
        have he4 : e4 = (close_step env rf k row
            (if env.dryRun = true then dryRunUrl o rn else url0)).1 := by rw [hcs]
        simp only [hcs] at hx
        cases res4 with
        | error ex =>
          simp only [List.mem_append] at hx
          rcases hx with ((h | h) | h) | h
          · exact resolve_dry_prints env cache row hd x (he1 ▸ h)
          · exact hRp x h
          · exact project_step_dry_prints env k row _ hd x (he3 ▸ h)
          · exact close_step_dry_prints env rf k row _ hd x (he4 ▸ h)
        | ok u2 =>
          obtain ⟨⟩ := u2
          simp only [List.mem_append] at hx
          rcases hx with ((h | h) | h) | h
          · exact resolve_dry_prints env cache row hd x (he1 ▸ h)
          · exact hRp x h
          · exact project_step_dry_prints env k row _ hd x (he3 ▸ h)
          · exact close_step_dry_prints env rf k row _ hd x (he4 ▸ h)

theorem driver_loop_dry_prints (env : Env) (o rn rf : String) (hd : env.dryRun = true) :
    ∀ (rows : List IssueRow) (k : Nat) (cache : Option MsMap) (x : Effect),
      x ∈ (driver_loop env o rn rf k rows cache).1 → isPrint x = true := by
  intro rows
  induction rows with
  | nil =>
    intro k cache x hx
    simp [driver_loop] at hx
  | cons row rest ih =>
    intro k cache x hx
    rcases hpr : process_row env o rn rf k row cache with ⟨effs, cache', res⟩
    have heffs : effs = (process_row env o rn rf k row cache).1 := by rw [hpr]
    cases res with
    | ok entry =>
      simp only [driver_loop, hpr] at hx
      simp only [List.mem_append] at hx
      rcases hx with h | h
      · exact process_row_dry_prints env o rn rf k row cache hd x (heffs ▸ h)
      · exact ih (k + 1) cache' x h
    | error ex =>
      cases ex with
      | err m =>
        simp only [driver_loop, hpr] at hx
        simp only [List.mem_append] at hx
        rcases hx with h | h
        · exact process_row_dry_prints env o rn rf k row cache hd x (heffs ▸ h)
        · exact ih (k + 1) cache' x h
      | interrupt =>
        simp only [driver_loop, hpr] at hx
        exact process_row_dry_prints env o rn rf k row cache hd x (heffs ▸ hx)

theorem ensure_labels_go_dry (existing : List String) (createRes : String → RunRes) :
    ∀ ls : List String,
      (∀ x ∈ (ensure_labels_go existing true createRes ls).1, isPrint x = true)
      ∧ (ensure_labels_go existing true createRes ls).2 = .ok () := by
  intro ls
  induction ls with
  | nil =>
    constructor
    · intro x hx
      simp [ensure_labels_go] at hx
    · rfl
  | cons l rest ih =>
    by_cases hmem : pyLower l ∈ existing
    · constructor
      · intro x hx
        simp only [ensure_labels_go, if_pos hmem] at hx
        exact ih.1 x hx
      · simp only [ensure_labels_go, if_pos hmem]
        exact ih.2
    · constructor
      · intro x hx
        simp only [ensure_labels_go, if_neg hmem, if_pos] at hx
        rcases List.mem_cons.mp hx with h | h
        · rw [h]
          rfl
        · exact ih.1 x h
      · simp only [ensure_labels_go, if_neg hmem, if_pos]
        exact ih.2

theorem ensure_labels_dry_prints (labels : List String) (listRes : RunRes)
    (createRes : String → RunRes) :
    ∀ x ∈ (ensure_labels labels listRes createRes true).1, isPrint x = true := by
  intro x hx
  simp only [ensure_labels] at hx
  by_cases hl : labels.isEmpty = true
  · rw [if_pos hl] at hx
    exact absurd hx (by simp)
  · rw [if_neg hl] at hx
    cases hg : get_existing_labels listRes with
    | error e =>
      simp only [hg] at hx
      exact absurd hx (by simp)
    | ok names =>
      simp only [hg] at hx
      exact (ensure_labels_go_dry (names.map pyLower) createRes labels).1 x hx

/-- C4: with dry-run enabled, a whole run performs no remote mutation call —
every effect is console output — and each mutation-capable operation instead
prints its intended action and returns successfully. -/
theorem claim_C4_dry_run_no_mutations (env : Env) (recs : List RawRec)
    (hd : env.dryRun = true) :
    (∀ x ∈ (main_flow env recs).2, isPrint x = true)
    ∧ (∀ (o rn : String) (row : IssueRow) (mn : Option Int) (remote : RunRes),
        (create_issue_via_api o rn row mn true remote).2 = .ok (-1, "DRY-RUN"))
    ∧ (∀ (po : String) (n : Int) (url : String) (r : RunRes),
        (add_issue_to_project_v2 po n url true r).2 = .ok ())
    ∧ (∀ (target repo : String) (reason : Option String) (r : RunRes),
        (close_issue target repo reason true r).2 = .ok ())
    ∧ (∀ (existing ls : List String) (createRes : String → RunRes),
        (ensure_labels_go existing true createRes ls).2 = .ok ()) := by
  refine ⟨?_, fun _ _ _ _ _ => rfl, fun _ _ _ _ => rfl, fun _ _ _ _ => rfl,
    fun existing ls createRes => (ensure_labels_go_dry existing createRes ls).2⟩
  intro x hx
  simp only [main_flow] at hx
  by_cases hcsv : env.csvExists = false
  · simp only [hcsv, if_pos] at hx
    exact absurd hx (by simp)
  · rw [if_neg hcsv] at hx
    cases hrr : ensure_repo_name_with_owner env.repoArg env.repoView with
    | error ex =>
      cases ex with
      | interrupt =>
        simp only [hrr] at hx
        exact absurd hx (by simp)
      | err m =>
        simp only [hrr] at hx
        exact absurd hx (by simp)
    | ok rf =>
      simp only [hrr] at hx
      cases hsp : split_owner rf with
      | error ex =>
        cases ex with
        | interrupt =>
          simp only [hsp] at hx
          exact absurd hx (by simp)
        | err m =>
          simp only [hsp] at hx
          exact absurd hx (by simp)
      | ok pr =>
        obtain ⟨o, rn⟩ := pr
        simp only [hsp] at hx
        by_cases hne : (read_csv recs).isEmpty = true
        · rw [if_pos hne] at hx
          exact absurd hx (by simp)
        · rw [if_neg hne] at hx
          rcases hfl : (if env.noLabelCreate = true then (([] : List Effect), Except.ok ())
              else ensure_labels (all_labels (read_csv recs)) env.labelList env.labelCreate
                env.dryRun) with ⟨effsL, resL⟩
          have heL : ∀ y ∈ effsL, isPrint y = true := by
            intro y hy
            by_cases hnl : env.noLabelCreate = true
            · rw [if_pos hnl] at hfl
              simp only [Prod.mk.injEq] at hfl
              rw [← hfl.1] at hy
              exact absurd hy (by simp)
            · rw [if_neg hnl, hd] at hfl
              have : effsL = (ensure_labels (all_labels (read_csv recs)) env.labelList
                  env.labelCreate true).1 := by rw [hfl]
              exact ensure_labels_dry_prints _ _ _ y (this ▸ hy)
          simp only [hfl] at hx
          cases resL with
          | error ex =>
            cases ex with
            | interrupt => exact heL x hx
            | err m => exact heL x hx
          | ok u =>
            obtain ⟨⟩ := u
            dsimp only at hx
            by_cases hflag : (driver_loop env o rn rf 1 (read_csv recs) none).2.2.2 = true
            · rw [if_pos hflag] at hx
              simp only [List.mem_append] at hx
              rcases hx with h | h
              · exact heL x h
              · exact driver_loop_dry_prints env o rn rf hd (read_csv recs) 1 none x h
            · rw [if_neg hflag] at hx
              simp only [List.mem_append] at hx
              rcases hx with h | h
              · exact heL x h
              · exact driver_loop_dry_prints env o rn rf hd (read_csv recs) 1 none x h

/-- Witness for C4: the concrete dry-run environment exercising label
creation, milestone creation, issue creation, project attach and close emits
only prints, and the run succeeds. -/
theorem claim_C4_dry_run_no_mutations_witness :
    (main_flow envC4 recsC4).2.all isPrint = true
    ∧ (main_flow envC4 recsC4).1 =
        .ret 0 [(1, "-1", "https://github.com/o/r/issues/<new>")] [] := by
  constructor
  · rw [List.all_eq_true]
    intro x hx
    exact (claim_C4_dry_run_no_mutations envC4 recsC4 rfl).1 x hx
  · rfl

/-- Creation failures never make the per-label loop raise (when no call is
interrupted). -/
theorem ensure_labels_go_ok (existing : List String) (createRes : String → RunRes)
    (hni : ∀ x, ∃ tr, createRes x = .ok tr) :
    ∀ ls : List String, (ensure_labels_go existing false createRes ls).2 = .ok () := by
  intro ls
  induction ls with
  | nil => rfl
  | cons l rest ih =>
    by_cases hmem : pyLower l ∈ existing
    · simp only [ensure_labels_go, if_pos hmem]
      exact ih
    · obtain ⟨tr, htr⟩ := hni l
      obtain ⟨c1, o1, e1⟩ := tr
      simp only [ensure_labels_go, if_neg hmem, htr]
      exact ih

/-- A label whose creation call returns a non-zero status leaves a warning
print in the loop's effects. -/
theorem ensure_labels_go_warn (existing : List String) (createRes : String → RunRes)
    (hni : ∀ x, ∃ tr, createRes x = .ok tr) (l : String) (code : Int) (o e : String)
    (hl : pyLower l ∉ existing) (hc : createRes l = .ok (code, o, e)) (hcode : code ≠ 0) :
    ∀ ls : List String, l ∈ ls →
      Effect.print ("WARN: failed to create label '" ++ l ++ "': " ++ e)
        ∈ (ensure_labels_go existing false createRes ls).1 := by
  intro ls
  induction ls with
  | nil =>
    intro hm
    simp at hm
  | cons x rest ih =>
    intro hm
    by_cases hx : pyLower x ∈ existing
    · have hlx : l ≠ x := by
        intro heq
        rw [heq] at hl
        exact hl hx
      have hmr : l ∈ rest := by
        rcases List.mem_cons.mp hm with h | h
        · exact absurd h hlx
        · exact h
      have hgo : ensure_labels_go existing false createRes (x :: rest) =
          ensure_labels_go existing false createRes rest := by
        simp [ensure_labels_go, hx]
      rw [hgo]
      exact ih hmr
    · obtain ⟨tr, htr⟩ := hni x
      obtain ⟨cx, ox, ex⟩ := tr
      have hgo : (ensure_labels_go existing false createRes (x :: rest)).1 =
          (Effect.labelCreate x ::
            (if cx ≠ 0 then
              [Effect.print ("WARN: failed to create label '" ++ x ++ "': " ++ ex)] else []))
            ++ (ensure_labels_go existing false createRes rest).1 := by
        simp [ensure_labels_go, hx, htr]
      rw [hgo]
      rcases List.mem_cons.mp hm with h | h
      · subst h
        have hpair : (cx, ox, ex) = (code, o, e) := Except.ok.inj (htr.symm.trans hc)
        have hcx : cx = code := congrArg (fun p => p.1) hpair
        have hex : ex = e := congrArg (fun p => p.2.2) hpair
        rw [hcx, hex, if_pos hcode]
        simp
      · simp only [List.mem_append]
        right
        exact ih h

/-- C7 (counterexample): label `broken` fails to create (warning only, run
completes with exit 0), yet the issue-creation request for the affected row
still carries `labels: ["broken"]` — the issue is NOT created "without that
label attached": the script never removes a failed label from the payload. -/
theorem claim_C7_counterexample :
    (main_flow envC7 recsC7).1 = .ret 0 [(1, "5", "https://x")] []
    ∧ Effect.print "WARN: failed to create label 'broken': label exists"
        ∈ (main_flow envC7 recsC7).2
    ∧ Effect.issueCreate
        { title := "T", body := none, labels := some ["broken"], assignees := none,
          milestone := none } ∈ (main_flow envC7 recsC7).2 :=
  ⟨rfl, by decide, by decide⟩

/-- C7 (amended): a failed label creation is non-fatal — `ensure_labels`
returns successfully whatever the create statuses, emitting only a warning
for the failed label — and processing continues; the affected row's issue is
later created with the label still included in its creation payload (the
payload always carries the row's full label list). -/
theorem claim_C7_label_failure_nonfatal (labels : List String) (listRes : RunRes)
    (createRes : String → RunRes) (names : List String) (row : IssueRow) (mn : Option Int)
    (l : String) (code : Int) (o e : String)
    (hfetch : get_existing_labels listRes = .ok names)
    (hni : ∀ x, ∃ tr, createRes x = .ok tr) :
    (ensure_labels labels listRes createRes false).2 = .ok ()
    ∧ (l ∈ labels → pyLower l ∉ names.map pyLower → createRes l = .ok (code, o, e) →
        code ≠ 0 →
        Effect.print ("WARN: failed to create label '" ++ l ++ "': " ++ e)
          ∈ (ensure_labels labels listRes createRes false).1)
    ∧ (buildPayload row mn).labels = (if row.labels = [] then none else some row.labels) := by
  refine ⟨?_, ?_, rfl⟩
  · by_cases hl : labels.isEmpty = true
    · simp only [ensure_labels, if_pos hl]
    · simp only [ensure_labels, if_neg hl, hfetch]
      exact ensure_labels_go_ok (names.map pyLower) createRes hni labels
  · intro hmem hnotin hc hcode
    by_cases hl : labels.isEmpty = true
    · rw [List.isEmpty_iff] at hl
      rw [hl] at hmem
      exact absurd hmem (by simp)
    · simp only [ensure_labels, if_neg hl, hfetch]
      exact ensure_labels_go_warn (names.map pyLower) createRes hni l code o e hnotin hc hcode
        labels hmem

/-- Witness for the amended C7 at a concrete failing label. -/
theorem claim_C7_label_failure_nonfatal_witness :
    (ensure_labels ["broken"] (.ok (0, "[]", ""))
      (fun _ => .ok (1, "", "label exists")) false).2 = .ok ()
    ∧ Effect.print "WARN: failed to create label 'broken': label exists"
        ∈ (ensure_labels ["broken"] (.ok (0, "[]", ""))
            (fun _ => .ok (1, "", "label exists")) false).1
    ∧ (buildPayload { title := "T", labels := ["broken"] } none).labels = some ["broken"] := by
  have h := claim_C7_label_failure_nonfatal ["broken"] (.ok (0, "[]", ""))
    (fun _ => .ok (1, "", "label exists")) [] { title := "T", labels := ["broken"] } none
    "broken" 1 "" "label exists" rfl (fun _ => ⟨(1, "", "label exists"), rfl⟩)
  exact ⟨h.1, h.2.1 (by decide) (by decide) rfl (by decide), h.2.2⟩

/-- C8: in dry-run mode `ensure_milestone` returns the `-1` sentinel for a
missing milestone after printing the intended creation; the driver's
milestone branch leaves the cache untouched (the sentinel is never stored, as
only positive numbers are cached) and resolves no milestone number for the
row; and the creation payload carries a `milestone` field only for a
positive resolved id. -/
theorem claim_C8_dry_run_sentinel (t : String) (listRes createRes : RunRes) (m c : MsMap)
    (env : Env) (row : IssueRow) (n : Int)
    (hgm : get_milestones_map listRes = .ok m)
    (habs : lookupA (pyLower t) m = none) :
    ensure_milestone t listRes createRes true =
      ([Effect.print ("DRY-RUN: would create milestone '" ++ t ++ "'")], .ok (-1))
    ∧ (env.dryRun = true → env.noMilestoneCreate = false →
        get_milestones_map env.milestoneList = .ok m → lookupA (pyLower t) c = none →
        milestone_branch env c t =
          ([Effect.print ("DRY-RUN: would create milestone '" ++ t ++ "'")], c, .ok ())
        ∧ lookupA (pyLower t) c = none)
    ∧ (buildPayload row none).milestone = none
    ∧ (buildPayload row (some n)).milestone = (if 0 < n then some n else none) := by
  refine ⟨?_, ?_, rfl, rfl⟩
  · simp only [ensure_milestone, hgm, habs, if_pos]
  · intro hd hnm hgm2 habsc
    refine ⟨?_, habsc⟩
    have hens : ensure_milestone t env.milestoneList (env.milestoneCreate t) env.dryRun =
        ([Effect.print ("DRY-RUN: would create milestone '" ++ t ++ "'")], .ok (-1)) := by
      rw [hd]
      simp only [ensure_milestone, hgm2, habs, if_pos]
    simp only [milestone_branch, habsc, Option.isSome_none, Bool.false_eq_true, if_false,
      hnm, hens]
    rw [if_neg (by norm_num)]

/-- Witness for C8 at the concrete dry-run environment (empty remote
milestone list, milestone `M1` missing). -/
theorem claim_C8_dry_run_sentinel_witness :
    ensure_milestone "M1" (.ok (0, "[]", "")) (.ok (0, "", "")) true =
      ([Effect.print "DRY-RUN: would create milestone 'M1'"], .ok (-1))
    ∧ milestone_branch envC8 [] "M1" =
        ([Effect.print "DRY-RUN: would create milestone 'M1'"], [], .ok ())
    ∧ (buildPayload { title := "T" } none).milestone = none
    ∧ (buildPayload { title := "T" } (some 3)).milestone = some 3 := by
  have h := claim_C8_dry_run_sentinel "M1" (.ok (0, "[]", "")) (.ok (0, "", "")) [] []
    envC8 { title := "T" } 3 rfl rfl
  exact ⟨h.1, (h.2.1 rfl rfl rfl rfl).1, h.2.2.1, h.2.2.2⟩
